import Mathlib

/-!
# Verification of the SmartFileRenamer metadata-extraction engine

A shallow embedding of `src/processor.py` (class `FileProcessor`) together
with proofs of the specification's claims about it.

Modelling conventions:

* Python strings are Lean `String`s; the scanner core works on `List Char`.
* The handful of regular expressions used by the source are embedded as
  explicit backtracking pattern functions (`Pat`).  A pattern applied to a
  suffix of the text returns the list of all possible
  `(captured groups, remaining suffix)` outcomes **in Python's backtracking
  preference order** (alternation is left-first, quantifiers are greedy,
  a negative lookahead consumes nothing and succeeds exactly when its body
  has no match).  `searchPat` then mirrors `re.search`: the first outcome at
  the leftmost position where any outcome exists.
* Python floats (`confidence`) are modelled as rationals; the source only
  adds fixed decimal constants and clamps with `min`.
* File-system state is modelled as an association list from paths to file
  contents; the transaction log directory is a list of transactions with the
  most recent first.
-/

namespace SmartFileRenamer

/-- Python's `\s` character class (ASCII part, the only part the data uses). -/
def isWsChar (c : Char) : Bool :=
  c = ' ' || c = '\t' || c = '\n' || c = '\r' || c = '\x0b' || c = '\x0c'

/-- Fuelled decimal-digit computation (structural recursion, so that the
kernel can evaluate it; the fuel `n + 1` always suffices). -/
def natDigitsAux : Nat → Nat → List Char
  | 0, _ => []
  | fuel + 1, n =>
    if n < 10 then [Char.ofNat (48 + n)]
    else natDigitsAux fuel (n / 10) ++ [Char.ofNat (48 + n % 10)]

/-- Decimal digits of a natural number, most significant first (the model of
Python's `str(n)` / `f"{n}"` formatting). -/
def natDigits (n : Nat) : List Char := natDigitsAux (n + 1) n

/-- Python's `str(n)` for a natural number. -/
def natStr (n : Nat) : String := String.mk (natDigits n)

/-- Python's `f"{m:02d}"` for the month values the source produces. -/
def pad2 (n : Nat) : String :=
  if n < 10 then "0" ++ natStr n else natStr n

/-- `int` applied to a captured digit string. -/
def capNat (cs : List Char) : Nat :=
  cs.foldl (fun a c => a * 10 + (c.toNat - 48)) 0

/-- One backtracking outcome: the captured groups (in group order) and the
remaining input after the match. -/
abbrev MatchOut := List (List Char) × List Char

/-- A pattern, as the list of its possible outcomes at the current position,
in backtracking preference order. -/
abbrev Pat := List Char → List MatchOut

/-- The empty pattern: always matches, consuming nothing. -/
def pEps : Pat := fun s => [([], s)]

/-- A literal string. -/
def pLit (lit : String) : Pat := fun s =>
  if lit.data.isPrefixOf s then [([], s.drop lit.length)] else []

/-- A literal string, compared case-insensitively (`re.IGNORECASE`). -/
def pLitCI (lit : String) : Pat := fun s =>
  if (lit.data.map Char.toLower).isPrefixOf (s.take lit.length |>.map Char.toLower) &&
      lit.length ≤ s.length then
    [([], s.drop lit.length)]
  else []

/-- Sequencing: every outcome of the first, continued by every outcome of the
second; captures are concatenated in order. -/
def pSeq (a b : Pat) : Pat := fun s =>
  (a s).flatMap fun o => (b o.2).map fun o' => (o.1 ++ o'.1, o'.2)

/-- Sequencing of a list of patterns. -/
def pSeqs (ps : List Pat) : Pat := ps.foldr pSeq pEps

/-- Left-biased alternation (`|`). -/
def pAlt (a b : Pat) : Pat := fun s => a s ++ b s

/-- Left-biased alternation over a list. -/
def pAlts (ps : List Pat) : Pat := fun s => ps.flatMap (· s)

/-- Remaining suffixes after consuming `0, 1, 2, …` whitespace characters,
longest consumption first (greedy `\s*`). -/
def wsRests : List Char → List (List Char)
  | [] => [[]]
  | c :: cs => if isWsChar c then wsRests cs ++ [c :: cs] else [c :: cs]

/-- Greedy `\s*`. -/
def pWs : Pat := fun s => (wsRests s).map (fun r => ([], r))

/-- Greedy `\s+`. -/
def pWsPlus : Pat := fun s =>
  match s with
  | [] => []
  | c :: cs => if isWsChar c then (wsRests cs).map (fun r => ([], r)) else []

/-- A single character satisfying a predicate. -/
def pPred (p : Char → Bool) : Pat := fun s =>
  match s with
  | [] => []
  | c :: cs => if p c then [([], cs)] else []

/-- One decimal digit (`\d`). -/
def pDigit : Pat := pPred Char.isDigit

/-- Greedy `\d{1,2}`, not capturing: the two-digit outcome first. -/
def pDigits12 : Pat := fun s =>
  match s with
  | c1 :: c2 :: rest =>
    (if c1.isDigit && c2.isDigit then [(([] : List (List Char)), rest)] else []) ++
      (if c1.isDigit then [([], c2 :: rest)] else [])
  | [c1] => if c1.isDigit then [([], [])] else []
  | [] => []

/-- Remaining suffixes after consuming `1, 2, …` digits, longest first. -/
def digitRests : List Char → List (List Char)
  | [] => []
  | c :: cs => if c.isDigit then digitRests cs ++ [cs] else []

/-- Greedy `\d+`, not capturing. -/
def pDigitsPlus : Pat := fun s => (digitRests s).map (fun r => ([], r))

/-- The literal `20\d{2}` (a four-digit year starting `20`), not capturing. -/
def pYear4 : Pat := fun s =>
  match s with
  | a :: b :: c :: d :: rest =>
    if a = '2' && b = '0' && c.isDigit && d.isDigit then [([], rest)] else []
  | _ => []

/-- Greedy `?` applied to a pattern: the consuming outcomes first, then the
empty one. -/
def pOpt (p : Pat) : Pat := fun s => p s ++ [([], s)]

/-- Greedy `[c₁-c₂]?`. -/
def pOptRange (lo hi : Char) : Pat := pOpt (pPred (fun c => lo ≤ c && c ≤ hi))

/-- A capturing group wrapped around a pattern: appends the consumed text as
one more captured group. -/
def pCapture (p : Pat) : Pat := fun s =>
  (p s).map fun o => (o.1 ++ [s.take (s.length - o.2.length)], o.2)

/-- Negative lookahead `(?! … )`: consumes nothing, succeeds exactly when the
body has no outcome here. -/
def pNeg (p : Pat) : Pat := fun s => if (p s).isEmpty then [([], s)] else []

/-- A single character from an explicit set (a character class of literals). -/
def pClass (cs : List Char) : Pat := pPred (fun c => cs.contains c)

/-- `re.search`: try the pattern at each position left to right and return the
first outcome of the first position that has one, together with the text that
follows the match (Python's `text[match.end():]`). -/
def searchPat (p : Pat) : List Char → Option MatchOut
  | [] => match p [] with
    | o :: _ => some o
    | [] => none
  | c :: cs => match p (c :: cs) with
    | o :: _ => some o
    | [] => searchPat p cs

/-- Fuelled core of `re.sub` (structural recursion, so that the kernel can
evaluate it; every step shortens the text, so fuel `s.length` suffices). -/
def subAllAux (p : Pat) (repl : List Char) : Nat → List Char → List Char
  | 0, s => s
  | fuel + 1, s =>
    match p s with
    | o :: _ =>
      if o.2.length < s.length then repl ++ subAllAux p repl fuel o.2
      else
        match s with
        | [] => []
        | c :: cs => c :: subAllAux p repl fuel cs
    | [] =>
      match s with
      | [] => []
      | c :: cs => c :: subAllAux p repl fuel cs

/-- `re.sub(pattern, repl, text)` for patterns that cannot match the empty
string: scan left to right, replacing each match and resuming after it. -/
def subAll (p : Pat) (repl : List Char) (s : List Char) : List Char :=
  subAllAux p repl s.length s

/-- Remaining suffixes after consuming `1, 2, …` characters satisfying `p`,
longest first (greedy `X+` for a character class `X`). -/
def predRests (p : Char → Bool) : List Char → List (List Char)
  | [] => []
  | c :: cs => if p c then predRests p cs ++ [cs] else []

/-- Greedy one-or-more repetition of a character class, not capturing. -/
def pPredPlus (p : Char → Bool) : Pat := fun s =>
  (predRests p s).map (fun r => ([], r))

/-- Greedy `\S+`. -/
def pNonWsPlus : Pat := pPredPlus (fun c => !(isWsChar c))

/-- Greedy `{0,2}` repetition: two copies first, then one, then zero. -/
def pRep02 (p : Pat) : Pat := pAlts [pSeq p p, p, pEps]

/-- Python's `str.strip()`: drop whitespace from both ends. -/
def trimChars (s : List Char) : List Char :=
  ((s.dropWhile isWsChar).reverse.dropWhile isWsChar).reverse

/-- Python's `str.split(sep)` for a one-character separator. -/
def splitOnChar (c : Char) : List Char → List (List Char)
  | [] => [[]]
  | x :: xs =>
    match splitOnChar c xs with
    | [] => [[]]
    | r :: rs => if x = c then [] :: r :: rs else (x :: r) :: rs

/-- Python's `'\n'.join`. -/
def joinLines : List (List Char) → List Char
  | [] => []
  | [l] => l
  | l :: ls => l ++ '\n' :: joinLines ls

/-- Is `needle` a contiguous sublist of `hay`? -/
def infixAt (needle : List Char) : List Char → Bool
  | [] => needle.isEmpty
  | c :: cs => needle.isPrefixOf (c :: cs) || infixAt needle cs

/-- Substring containment, Python's `needle in text`. -/
def containsSub (needle : String) (hay : List Char) : Bool :=
  infixAt needle.data hay

/-! ## The source's regular expressions

Each definition below embeds one regular-expression literal of
`src/processor.py`; the Python pattern is quoted in the doc comment. -/

/-- Capturing `(\d{1,2})`. -/
def pCapD12 : Pat := pCapture pDigits12

/-- Capturing `(20\d{2})`. -/
def pCapY : Pat := pCapture pYear4

/-- `(?:고\d|중\d)`. -/
def pGradeTok : Pat :=
  pAlt (pSeqs [pLit "고", pDigit]) (pSeqs [pLit "중", pDigit])

/-- `(\d{1,2})\s*월\s*(?:고\d|중\d)`. -/
def patExamMonth1 : Pat := pSeqs [pCapD12, pWs, pLit "월", pWs, pGradeTok]

/-- `(\d{1,2})\s*월\s*(?:전국연합|모의|학력)`. -/
def patExamMonth2 : Pat :=
  pSeqs [pCapD12, pWs, pLit "월", pWs, pAlts [pLit "전국연합", pLit "모의", pLit "학력"]]

/-- `(\d{1,2})\s*월\s*(?:평가|고사|시험)`. -/
def patExamMonth3 : Pat :=
  pSeqs [pCapD12, pWs, pLit "월", pWs, pAlts [pLit "평가", pLit "고사", pLit "시험"]]

/-- `(?:고\d|중\d)\s*(\d{1,2})\s*월`. -/
def patExamMonth4 : Pat := pSeqs [pGradeTok, pWs, pCapD12, pWs, pLit "월"]

/-- The `exam_month_patterns` list (identical in `_extract_date_priority`
and `_extract_month_detail`). -/
def examMonthPatterns : List Pat :=
  [patExamMonth1, patExamMonth2, patExamMonth3, patExamMonth4]

/-- `(20\d{2})\s*학년도`. -/
def patHaknyundo : Pat := pSeqs [pCapY, pWs, pLit "학년도"]

/-- `(20\d{2})\s*년`. -/
def patYearNyeon : Pat := pSeqs [pCapY, pWs, pLit "년"]

/-- `(\d{1,2})\s*월`. -/
def patMonthWs : Pat := pSeqs [pCapD12, pWs, pLit "월"]

/-- `(20\d{2})\s*년\s*(\d{1,2})\s*월(?!\s*\d{1,2}\s*일)`
(date-priority tier 3, the edit-timestamp exclusion). -/
def patYM3 : Pat :=
  pSeqs [pCapY, pWs, pLit "년", pWs, pCapD12, pWs, pLit "월",
    pNeg (pSeqs [pWs, pDigits12, pWs, pLit "일"])]

/-- `제\s*(20\d{2})\s*-\s*\d+\s*호`. -/
def patJeHo : Pat :=
  pSeqs [pLit "제", pWs, pCapY, pWs, pLit "-", pWs, pDigitsPlus, pWs, pLit "호"]

/-- `(20\d{2})\s*\.\s*\d{1,2}\s*\.\s*\d{1,2}`. -/
def patDotted : Pat :=
  pSeqs [pCapY, pWs, pLit ".", pWs, pDigits12, pWs, pLit ".", pWs, pDigits12]

/-- `(20\d{2})` (bare year, last resort). -/
def patBareYear : Pat := pCapY

/-- Capturing `([1-3])`. -/
def pCapNum13 : Pat := pCapture (pPred fun c => '1' ≤ c && c ≤ '3')

/-- Capturing `([1-6])`. -/
def pCapNum16 : Pat := pCapture (pPred fun c => '1' ≤ c && c ≤ '6')

/-- The `grade_patterns` of `_extract_date_priority`:
`(고)\s*([1-3])(?!\d)`, `(중)\s*([1-3])(?!\d)`, `(고등학교)\s*([1-3])\s*학년`,
`(중학교)\s*([1-3])\s*학년`, `(초등학교)\s*([1-6])\s*학년`,
`(고등)\s*([1-3])\s*학년`, `(중등)\s*([1-3])\s*학년`. -/
def contentGradePatterns : List Pat :=
  [pSeqs [pCapture (pLit "고"), pWs, pCapNum13, pNeg pDigit],
   pSeqs [pCapture (pLit "중"), pWs, pCapNum13, pNeg pDigit],
   pSeqs [pCapture (pLit "고등학교"), pWs, pCapNum13, pWs, pLit "학년"],
   pSeqs [pCapture (pLit "중학교"), pWs, pCapNum13, pWs, pLit "학년"],
   pSeqs [pCapture (pLit "초등학교"), pWs, pCapNum16, pWs, pLit "학년"],
   pSeqs [pCapture (pLit "고등"), pWs, pCapNum13, pWs, pLit "학년"],
   pSeqs [pCapture (pLit "중등"), pWs, pCapNum13, pWs, pLit "학년"]]

/-- `(20\d{2})학년도` (whitespace-stripped retry). -/
def patNsHak : Pat := pSeqs [pCapY, pLit "학년도"]

/-- `(\d{1,2})월(?:고|중|전국|학력|모의)` (whitespace-stripped retry). -/
def patNsMonth : Pat :=
  pSeqs [pCapD12, pLit "월",
    pAlts [pLit "고", pLit "중", pLit "전국", pLit "학력", pLit "모의"]]

/-- `(고|중)([1-3])` (whitespace-stripped grade retry). -/
def patNsGrade : Pat :=
  pSeqs [pAlt (pCapture (pLit "고")) (pCapture (pLit "중")), pCapNum13]

/-- `20\d{2}\s*년\s*(\d{1,2})\s*월\s*(?:고|전국|모의|학력|평가)`
(month-detail tier 2, first pattern). -/
def patMD1 : Pat :=
  pSeqs [pYear4, pWs, pLit "년", pWs, pCapD12, pWs, pLit "월", pWs,
    pAlts [pLit "고", pLit "전국", pLit "모의", pLit "학력", pLit "평가"]]

/-- `20\d{2}\s*년\s*(\d{1,2})\s*월\s*(?![0-3]?\d\s*일)`
(month-detail tier 2, second pattern). -/
def patMD2 : Pat :=
  pSeqs [pYear4, pWs, pLit "년", pWs, pCapD12, pWs, pLit "월", pWs,
    pNeg (pSeqs [pOptRange '0' '3', pDigit, pWs, pLit "일"])]

/-- `(\d{1,2})\s*월\s*모의`. -/
def patMock1 : Pat := pSeqs [pCapD12, pWs, pLit "월", pWs, pLit "모의"]

/-- `(\d{1,2})\s*월\s*학력`. -/
def patMock2 : Pat := pSeqs [pCapD12, pWs, pLit "월", pWs, pLit "학력"]

/-- `모의\s*(\d{1,2})\s*월`. -/
def patMock3 : Pat := pSeqs [pLit "모의", pWs, pCapD12, pWs, pLit "월"]

/-- `(20[0-9]{2})학년도` (filename, year tier 1). -/
def patFnHak : Pat := pSeqs [pCapY, pLit "학년도"]

/-- `(20\d{2})[-_./](\d{1,2})` (filename, year tier 2). -/
def patFnYM : Pat := pSeqs [pCapY, pClass ['-', '_', '.', '/'], pCapD12]

/-- `(20[0-9]{2})년?` (filename, year tier 3). -/
def patFnYear : Pat := pSeqs [pCapY, pOpt (pLit "년")]

/-- `(\d{1,2})월` (filename month). -/
def patFnMonth : Pat := pSeqs [pCapD12, pLit "월"]

/-- The filename `grade_patterns`: `(고)\s*([1-3])`, `(중)\s*([1-3])`,
`(고등학교)\s*([1-3])\s*학년`, `(중학교)\s*([1-3])\s*학년`,
`(초등학교)\s*([1-6])\s*학년` (no lookahead, unlike the content version). -/
def filenameGradePatterns : List Pat :=
  [pSeqs [pCapture (pLit "고"), pWs, pCapNum13],
   pSeqs [pCapture (pLit "중"), pWs, pCapNum13],
   pSeqs [pCapture (pLit "고등학교"), pWs, pCapNum13, pWs, pLit "학년"],
   pSeqs [pCapture (pLit "중학교"), pWs, pCapNum13, pWs, pLit "학년"],
   pSeqs [pCapture (pLit "초등학교"), pWs, pCapNum16, pWs, pLit "학년"]]

/-! ## Capture helpers -/

/-- Search and read group 1 as an integer (`int(match.group(1))`). -/
def scan1 (p : Pat) (t : List Char) : Option Nat :=
  (searchPat p t).map (fun o => capNat (o.1.headD []))

/-- Search and keep group 1 as text (`match.group(1)`). -/
def scanStr (p : Pat) (t : List Char) : Option String :=
  (searchPat p t).map (fun o => String.mk (o.1.headD []))

/-- Search and read group 1 as text and group 2 as an integer. -/
def scanStrNat (p : Pat) (t : List Char) : Option (String × Nat) :=
  (searchPat p t).map
    (fun o => (String.mk (o.1.headD []), capNat ((o.1.drop 1).headD [])))

/-- Search and keep groups 1 and 2 as text. -/
def scanStr2 (p : Pat) (t : List Char) : Option (String × String) :=
  (searchPat p t).map
    (fun o => (String.mk (o.1.headD []), String.mk ((o.1.drop 1).headD [])))

/-! ## Data model -/

/-- Modelled from the spec: `config.FileStatus` (the `config` module is not in
the sources); the spec enumerates the statuses ready, needs-review, duplicate,
renamed, error. -/
inductive FileStatus where
  | ready
  | needsCheck
  | duplicate
  | renamed
  | error
deriving DecidableEq, Repr

/-- `ExtractedInfo` (dataclass in `src/processor.py`); `confidence` is
modelled as a rational. -/
structure ExtractedInfo where
  year : String := ""
  month : String := ""
  subject : String := ""
  subject_main : String := ""
  subject_sub : String := ""
  grade : String := ""
  confidence : ℚ := 0
  source : String := ""
  raw_text : String := ""
  header_text : String := ""
  is_smart_extracted : Bool := false
deriving DecidableEq, Repr

/-- `FileEntry` (dataclass in `src/processor.py`). -/
structure FileEntry where
  original_path : String
  original_name : String
  extension : String
  extracted_info : ExtractedInfo := {}
  proposed_name : String := ""
  status : FileStatus := FileStatus.ready
  error_message : String := ""
  order : Nat := 0
deriving DecidableEq, Repr

/-- The keyword configuration consulted by the category and filename
extractors.  Modelled from the spec: the lists live in the `config` module,
which is not in the sources; the spec describes them as a user keyword list,
a two-tier subject taxonomy (sub-categories and broad categories) and generic
document-type keywords, injected as configuration data. -/
structure CategoryEnv where
  custom_keywords : List String := []
  subject_subcategories : List String := []
  subject_categories : List String := []
  document_keywords : List String := []

/-! ## `_extract_month_detail` -/

/-- The `suneung_keywords` literal of `_extract_month_detail`. -/
def suneungKeywordsDetail : List String :=
  ["대학수학능력시험", "수학능력시험", "능력시험", "수능",
   "대수능", "CSAT", "수능특강", "수능완성"]

/-- The `suneung_keywords` literal of `_extract_date_from_text` and
`_extract_from_filename`. -/
def suneungKeywordsShort : List String :=
  ["대학수학능력시험", "수학능력시험", "능력시험", "수능"]

/-- The `mock_exam_month_map` literal of `_extract_month_detail`, in source
(dict-insertion) order. -/
def mockExamMonthMap : List (String × String) :=
  [("3월 학력평가", "03"), ("3월 모의고사", "03"),
   ("4월 학력평가", "04"), ("4월 모의고사", "04"),
   ("6월 모의평가", "06"), ("6월 모의고사", "06"),
   ("7월 학력평가", "07"), ("7월 모의고사", "07"),
   ("9월 모의평가", "09"), ("9월 모의고사", "09"),
   ("10월 학력평가", "10"), ("10월 모의고사", "10"),
   ("11월 모의평가", "11")]

/-- The `half_year_map` literal of `_extract_month_detail`. -/
def halfYearMap : List (String × String) :=
  [("상반기", "06"), ("하반기", "12"),
   ("1분기", "03"), ("2분기", "06"), ("3분기", "09"), ("4분기", "12"),
   ("1/4분기", "03"), ("2/4분기", "06"), ("3/4분기", "09"), ("4/4분기", "12")]

/-- A chain of patterns tried in order, where the first match found is kept
only when its captured month is in 1..12, else the next pattern is tried
(the `for pattern in …: if match: … if 1 <= month <= 12:` loops). -/
def monthChain (pats : List Pat) (t : List Char) : Option Nat :=
  pats.findSome? fun p =>
    match scan1 p t with
    | some m => if 1 ≤ m ∧ m ≤ 12 then some m else none
    | none => none

/-- `FileProcessor._extract_month_detail`. -/
def extractMonthDetail (text : String) : String :=
  let t := text.data
  match monthChain examMonthPatterns t with
  | some m => pad2 m
  | none =>
    match monthChain [patMD1, patMD2] t with
    | some m => pad2 m
    | none =>
      if suneungKeywordsDetail.any (fun kw => containsSub kw t) then "11"
      else
        match monthChain [patMock1, patMock2, patMock3] t with
        | some m => pad2 m
        | none =>
          match mockExamMonthMap.findSome?
              (fun p => if containsSub p.1 t then some p.2 else none) with
          | some mv => mv
          | none =>
            match halfYearMap.findSome?
                (fun p => if containsSub p.1 t then some p.2 else none) with
            | some mv => mv
            | none =>
              if containsSub "1학기" t then
                if containsSub "중간" t then "04"
                else if containsSub "기말" t then "06"
                else "03"
              else if containsSub "2학기" t then
                if containsSub "중간" t then "10"
                else if containsSub "기말" t then "12"
                else "09"
              else ""

/-! ## `_extract_date_priority` -/

/-- The school-level normalization of `_extract_date_priority`'s grade loop. -/
def normalizeGradePfx (p : String) : String :=
  if p = "고" ∨ p = "고등학교" ∨ p = "고등" then "고"
  else if p = "중" ∨ p = "중학교" ∨ p = "중등" then "중"
  else if p = "초등학교" then "초"
  else String.mk (p.data.take 1)

/-- The school-level normalization of `_extract_from_filename`'s grade loop
(it has no `고등`/`중등` arms). -/
def normalizeGradePfxFn (p : String) : String :=
  if p = "고" ∨ p = "고등학교" then "고"
  else if p = "중" ∨ p = "중학교" then "중"
  else if p = "초등학교" then "초"
  else String.mk (p.data.take 1)

/-- Try the grade patterns in order; on the first match build
`prefix + num` using the given normalization. -/
def gradeChain (normalize : String → String) (pats : List Pat)
    (t : List Char) : Option String :=
  pats.findSome? fun p =>
    (scanStr2 p t).map fun g => normalize g.1 ++ g.2

/-- Tier 4 of `_extract_date_priority`: the three `year_patterns` in order;
a match is rejected (`continue`, moving to the next pattern) when the ten
characters after it contain `학년`. -/
def tier4Year (t : List Char) : Option String :=
  [patJeHo, patDotted, patBareYear].findSome? fun p =>
    match searchPat p t with
    | some o =>
      if containsSub "학년" (o.2.take 10) then none
      else some (String.mk (o.1.headD []))
    | none => none

/-- Tiers 1–4 of `_extract_date_priority` (first hit wins): exam-related
month, academic-year token, year-month pair, bare year. -/
def datePriorityTiers (t : List Char) (info : ExtractedInfo) :
    ExtractedInfo × ℚ :=
  match monthChain examMonthPatterns t with
  | some m =>
    -- tier 1: exam-related month; year attached opportunistically
    let info := { info with month := pad2 m }
    let info :=
      match scanStr patHaknyundo t with
      | some y => { info with year := y ++ "학년도" }
      | none =>
        match scanStr patYearNyeon t with
        | some y => { info with year := y }
        | none => info
    (info, 0.45)
  | none =>
    match scanStr patHaknyundo t with
    | some y =>
      -- tier 2: academic-year token
      let info := { info with year := y ++ "학년도" }
      match scan1 patMonthWs t with
      | some m =>
        if 1 ≤ m ∧ m ≤ 12 then ({ info with month := pad2 m }, 0.4 + 0.1)
        else (info, 0.4)
      | none => (info, 0.4)
    | none =>
      match scanStrNat patYM3 t with
      | some (y, m) =>
        -- tier 3: year-month pair, edit timestamps excluded
        let info := { info with year := y }
        let info :=
          if 1 ≤ m ∧ m ≤ 12 then { info with month := pad2 m } else info
        (info, 0.35)
      | none =>
        -- tier 4: bare year (only when the incoming record has none)
        if info.year = "" then
          match tier4Year t with
          | some y => ({ info with year := y }, 0.2)
          | none => (info, 0)
        else (info, 0)

/-- The month-detail refinement of `_extract_date_priority`: runs when a year
was found without a month, adding `0.1` on success. -/
def dpMonthDetailStep (header_text : String) (x : ExtractedInfo × ℚ) :
    ExtractedInfo × ℚ :=
  if x.1.year ≠ "" ∧ x.1.month = "" then
    let md := extractMonthDetail header_text
    if md ≠ "" then ({ x.1 with month := md }, x.2 + 0.1)
    else x
  else x

/-- The grade-extraction block of `_extract_date_priority`. -/
def dpGradeStep (t : List Char) (info : ExtractedInfo) : ExtractedInfo :=
  if info.grade = "" then
    match gradeChain normalizeGradePfx contentGradePatterns t with
    | some g => { info with grade := g }
    | none => info
  else info

/-- Whitespace-stripped year retry of `_extract_date_priority`. -/
def dpRetryYear (ns : List Char) (x : ExtractedInfo × ℚ) : ExtractedInfo × ℚ :=
  if x.1.year = "" then
    match scanStr patNsHak ns with
    | some y => ({ x.1 with year := y ++ "학년도" }, x.2 + 0.2)
    | none => x
  else x

/-- Whitespace-stripped month retry of `_extract_date_priority`. -/
def dpRetryMonth (ns : List Char) (x : ExtractedInfo × ℚ) : ExtractedInfo × ℚ :=
  if x.1.month = "" then
    match scan1 patNsMonth ns with
    | some m =>
      if 1 ≤ m ∧ m ≤ 12 then ({ x.1 with month := pad2 m }, x.2 + 0.2)
      else x
    | none => x
  else x

/-- Whitespace-stripped grade retry of `_extract_date_priority`. -/
def dpRetryGrade (ns : List Char) (info : ExtractedInfo) : ExtractedInfo :=
  if info.grade = "" then
    match scanStr2 patNsGrade ns with
    | some g => { info with grade := g.1 ++ g.2 }
    | none => info
  else info

/-- `dpGradeStep` lifted to the `(record, confidence)` pair (the grade block
never changes the confidence). -/
def dpGradeStepP (t : List Char) (x : ExtractedInfo × ℚ) : ExtractedInfo × ℚ :=
  (dpGradeStep t x.1, x.2)

/-- `dpRetryGrade` lifted to the `(record, confidence)` pair. -/
def dpRetryGradeP (ns : List Char) (x : ExtractedInfo × ℚ) :
    ExtractedInfo × ℚ :=
  (dpRetryGrade ns x.1, x.2)

/-- `FileProcessor._extract_date_priority` (its unused `header_lines`
parameter is dropped): the tier chain, the month-detail refinement, grade
extraction, then the three whitespace-stripped retries, exactly in source
order.  Returns the updated record and the confidence delta. -/
def extractDatePriority (header_text : String) (info : ExtractedInfo) :
    ExtractedInfo × ℚ :=
  dpRetryGradeP (header_text.data.filter (fun c => !(isWsChar c)))
    (dpRetryMonth (header_text.data.filter (fun c => !(isWsChar c)))
      (dpRetryYear (header_text.data.filter (fun c => !(isWsChar c)))
        (dpGradeStepP header_text.data
          (dpMonthDetailStep header_text
            (datePriorityTiers header_text.data info)))))

/-! ## `_clean_header_text` -/

/-- The first five `noise_patterns` of `_clean_header_text`:
`\[PAGE\]`, `e-mail\s*:`, `Tel\s*:`, `Fax\s*:`, `-\s*\d+\s*-`
(all applied with `re.IGNORECASE`). -/
def cleanNoisePatterns : List Pat :=
  [pLitCI "[PAGE]",
   pSeqs [pLitCI "e-mail", pWs, pLit ":"],
   pSeqs [pLitCI "Tel", pWs, pLit ":"],
   pSeqs [pLitCI "Fax", pWs, pLit ":"],
   pSeqs [pLit "-", pWs, pDigitsPlus, pWs, pLit "-"]]

/-- The sixth noise pattern `^\d+$` without `re.MULTILINE`: it matches the
whole text exactly when the text is a nonempty digit run, optionally followed
by one final newline (the `$` semantics); only the digits are removed. -/
def subFullDigits (s : List Char) : List Char :=
  let d := s.takeWhile Char.isDigit
  let r := s.dropWhile Char.isDigit
  if d ≠ [] ∧ (r = [] ∨ r = ['\n']) then r else s

/-- `FileProcessor._clean_header_text`. -/
def cleanHeaderText (text : String) : String :=
  let r := cleanNoisePatterns.foldl (fun acc p => subAll p [] acc) text.data
  let r := subFullDigits r
  let r := subAll pWsPlus [' '] r
  String.mk (trimChars r)

/-! ## `_extract_category` -/

/-- The `noise_patterns` of `_extract_category`: exam-title and
academic-domain compounds whose substrings must not be misread as subject
keywords; each is replaced by a space in the text used for subject matching.
Patterns: `대학\s*수학\s*능력\s*시험`, `수학\s*능력\s*시험`,
`수학\s*능력\s*평가`, `과학\s*기술`, `사회\s*과학`, `자연\s*과학`,
`한국\s*교육\s*과정`, `교육\s*과정\s*평가\s*원`. -/
def categoryNoisePatterns : List Pat :=
  [pSeqs [pLit "대학", pWs, pLit "수학", pWs, pLit "능력", pWs, pLit "시험"],
   pSeqs [pLit "수학", pWs, pLit "능력", pWs, pLit "시험"],
   pSeqs [pLit "수학", pWs, pLit "능력", pWs, pLit "평가"],
   pSeqs [pLit "과학", pWs, pLit "기술"],
   pSeqs [pLit "사회", pWs, pLit "과학"],
   pSeqs [pLit "자연", pWs, pLit "과학"],
   pSeqs [pLit "한국", pWs, pLit "교육", pWs, pLit "과정"],
   pSeqs [pLit "교육", pWs, pLit "과정", pWs, pLit "평가", pWs, pLit "원"]]

/-- The exam-title masking pass at the top of `_extract_category`. -/
def maskNoise (t : List Char) : List Char :=
  categoryNoisePatterns.foldl (fun acc p => subAll p [' '] acc) t

/-- `FileProcessor._extract_compound_noun`: the pattern
`((?:\S+\s+){0,2})` + escaped keyword, expanded prefix stripped. -/
def extractCompoundNoun (line : String) (keyword : String) : String :=
  match searchPat
      (pSeqs [pCapture (pRep02 (pSeqs [pNonWsPlus, pWsPlus])), pLit keyword])
      line.data with
  | some o =>
    let pfx := String.mk (trimChars (o.1.headD []))
    if pfx ≠ "" then pfx ++ " " ++ keyword else keyword
  | none => keyword

/-- The exam-period tier of `_extract_category`: when `교시` occurs, search
`제\s*([1-4])\s*교시` and then `([1-4])\s*교시`; periods 1–3 map to fixed
subjects, period 4 is deliberately unmapped. -/
def periodSubject (t : List Char) : Option String :=
  if containsSub "교시" t then
    let pm :=
      match scanStr (pSeqs [pLit "제", pWs,
          pCapture (pPred fun c => '1' ≤ c && c ≤ '4'), pWs, pLit "교시"]) t with
      | some g => some g
      | none =>
        scanStr (pSeqs [pCapture (pPred fun c => '1' ≤ c && c ≤ '4'),
          pWs, pLit "교시"]) t
    match pm with
    | some "1" => some "국어"
    | some "2" => some "수학"
    | some "3" => some "영어"
    | _ => none
  else none

/-- `FileProcessor._extract_category`.  The bracket-span tier
(`bracket_patterns` filtered by `exclude_bracket_patterns`) and the
suffix-pattern tier (tier 4) perform their own regex scans whose only effect
is the `found_bracket` / `found_word` string; they are taken here as oracle
inputs `bracketFound` / `suffixFound` (the accepted span, or `none`), and
every theorem below quantifies over them.  All other tiers are embedded
directly.  Returns the updated record and the confidence delta. -/
def extractCategory (env : CategoryEnv) (bracketFound suffixFound : Option String)
    (header_lines : List String) (header_text : String) (info : ExtractedInfo) :
    ExtractedInfo × ℚ :=
  let t := header_text.data
  let tClean := maskNoise t
  let found_bracket := bracketFound.getD ""
  let found_period_subject := (periodSubject t).getD ""
  let found_custom : String :=
    match env.custom_keywords.find? (fun k => containsSub k tClean) with
    | some k =>
      match header_lines.find? (fun line => containsSub k line.data) with
      | some line => extractCompoundNoun line k
      | none => k
    | none => ""
  let subjectScan :=
    match env.subject_subcategories.find? (fun k => containsSub k tClean) with
    | some k => (k, { info with subject_sub := k })
    | none =>
      match env.subject_categories.find? (fun k => containsSub k tClean) with
      | some k => (k, { info with subject_main := k })
      | none => ("", info)
  let found_subject := subjectScan.1
  let info := subjectScan.2
  let found_doc_type :=
    (env.document_keywords.find? (fun k => containsSub k t)).getD ""
  if found_bracket ≠ "" then ({ info with subject := found_bracket }, 0.6)
  else if found_custom ≠ "" then ({ info with subject := found_custom }, 0.7)
  else if found_period_subject ≠ "" then
    let subj :=
      if found_doc_type ≠ "" ∧ ¬ ["문제지", "시험지", "정답"].contains found_doc_type
      then found_period_subject ++ " " ++ found_doc_type
      else found_period_subject
    ({ info with subject := subj }, 0.65)
  else if found_subject ≠ "" ∧ found_doc_type ≠ "" then
    let subj :=
      if ["문제지", "시험지", "평가문제", "정답"].contains found_doc_type
      then found_subject
      else found_subject ++ " " ++ found_doc_type
    ({ info with subject := subj }, 0.6)
  else if found_doc_type ≠ "" then ({ info with subject := found_doc_type }, 0.4)
  else if found_subject ≠ "" then ({ info with subject := found_subject }, 0.35)
  else
    match suffixFound with
    | some w => ({ info with subject := w }, 0.2)
    | none => (info, 0)

/-! ## `_extract_title_heuristic` and `_extract_metadata` -/

/-- `FileProcessor._extract_title_heuristic`, abstracted: its line scoring and
exclusion regexes only determine which category keyword (if any) of the best
surviving line is adopted; that keyword is taken as the oracle input
`titleSubject`.  The function's only effect is to fill `subject` when it is
still empty. -/
def extractTitleHeuristic (titleSubject : Option String) (info : ExtractedInfo) :
    ExtractedInfo :=
  match titleSubject with
  | some k => if info.subject = "" then { info with subject := k } else info
  | none => info

/-- Python's `text[:n]`. -/
def takeStr (text : String) (n : Nat) : String :=
  String.mk (text.data.take n)

/-- `FileProcessor._extract_metadata`: header assembly, noise cleaning, date
extraction, category extraction, title fallback, confidence clamping. -/
def extractMetadata (env : CategoryEnv)
    (bracketFound suffixFound titleSubject : Option String)
    (text : String) (info : ExtractedInfo) : ExtractedInfo :=
  let lines := splitOnChar '\n' (trimChars text.data)
  let header_lines := ((lines.take 40).map trimChars).filter (· ≠ [])
  let header_text := String.mk (joinLines header_lines)
  let header_text_clean := cleanHeaderText header_text
  let info := { info with header_text := header_text, raw_text := takeStr text 3000 }
  let dp := extractDatePriority header_text_clean info
  let info := dp.1
  let cat := extractCategory env bracketFound suffixFound
    (header_lines.map String.mk) header_text_clean info
  let info := cat.1
  let info :=
    if info.subject = "" then extractTitleHeuristic titleSubject info else info
  { info with confidence := min (dp.2 + cat.2) 1 }

/-! ## `_extract_date_from_text` (string-search based fallback) -/

/-- Python's `text.find`: index of the first occurrence of a substring. -/
def findSubIdx (needle : List Char) : List Char → Option Nat
  | [] => if needle.isEmpty then some 0 else none
  | c :: cs =>
    if needle.isPrefixOf (c :: cs) then some 0
    else (findSubIdx needle cs).map (· + 1)

/-- Python's `text[a:b]` for `0 ≤ a ≤ b`. -/
def sliceStr (t : List Char) (a b : Nat) : List Char :=
  (t.drop a).take (b - a)

/-- Nonempty all-digit check, Python's `str.isdigit` on the slices used. -/
def allDigits (cs : List Char) : Bool :=
  !cs.isEmpty && cs.all Char.isDigit

/-- Step 1 of `_extract_date_from_text`: year by string search
(`학년도` marker, then `년` marker, then a scan of the literal years
2020–2039). -/
def dftYearStep (t : List Char) (x : ExtractedInfo × ℚ) : ExtractedInfo × ℚ :=
  if x.1.year = "" then
    let viaHak : Option (String × ℚ) :=
      match findSubIdx "학년도".data t with
      | some idx =>
        if 4 ≤ idx then
          let cand := sliceStr t (idx - 4) idx
          if allDigits cand ∧ "20".data.isPrefixOf cand then
            some (String.mk cand ++ "학년도", x.2 + 0.3)
          else none
        else none
      | none => none
    match viaHak with
    | some (y, c) => ({ x.1 with year := y }, c)
    | none =>
      let viaNyeon : Option (String × ℚ) :=
        match findSubIdx ['년'] t with
        | some idx =>
          if 4 ≤ idx then
            let cand := sliceStr t (idx - 4) idx
            if allDigits cand ∧ "20".data.isPrefixOf cand then
              some (String.mk cand, x.2 + 0.25)
            else none
          else none
        | none => none
      match viaNyeon with
      | some (y, c) => ({ x.1 with year := y }, c)
      | none =>
        match (List.range' 2020 20).find? (fun y => containsSub (natStr y) t) with
        | some y => ({ x.1 with year := natStr y }, x.2 + 0.15)
        | none => x
  else x

/-- Step 2 of `_extract_date_from_text`: month from the digits immediately
before the first `월`. -/
def dftMonthStep (t : List Char) (x : ExtractedInfo × ℚ) : ExtractedInfo × ℚ :=
  if x.1.month = "" then
    match findSubIdx ['월'] t with
    | some idx =>
      if 1 ≤ idx then
        let monthStr : Option (List Char) :=
          if 2 ≤ idx ∧ allDigits (sliceStr t (idx - 2) idx) then
            some (sliceStr t (idx - 2) idx)
          else if allDigits (sliceStr t (idx - 1) idx) then
            some (sliceStr t (idx - 1) idx)
          else none
        match monthStr with
        | some ms =>
          if 1 ≤ capNat ms ∧ capNat ms ≤ 12 then
            ({ x.1 with month := pad2 (capNat ms) }, x.2 + 0.2)
          else x
        | none => x
      else x
    | none => x
  else x

/-- Step 3 of `_extract_date_from_text`: national-exam keyword → month 11. -/
def dftSuneungStep (t : List Char) (x : ExtractedInfo × ℚ) : ExtractedInfo × ℚ :=
  if x.1.month = "" ∧ suneungKeywordsShort.any (fun kw => containsSub kw t) then
    ({ x.1 with month := "11" }, x.2 + 0.25)
  else x

/-- `FileProcessor._extract_date_from_text`: the three string-search steps in
source order, then the confidence clamp. -/
def extractDateFromText (text : String) (info : ExtractedInfo) : ExtractedInfo :=
  let x := dftSuneungStep text.data
    (dftMonthStep text.data (dftYearStep text.data (info, info.confidence)))
  { x.1 with confidence := min x.2 1 }

/-! ## `_extract_from_filename` -/

/-- Year block of `_extract_from_filename`: academic-year token, then a
`YYYY-MM` compact token (which also sets the month), then a plain year. -/
def ffYearStep (t : List Char) (info : ExtractedInfo) : ExtractedInfo :=
  match scanStr patFnHak t with
  | some y => { info with year := y ++ "학년도" }
  | none =>
    match scanStrNat patFnYM t with
    | some (y, m) =>
      let info := { info with year := y }
      if 1 ≤ m ∧ m ≤ 12 then { info with month := pad2 m } else info
    | none =>
      match scanStr patFnYear t with
      | some y => { info with year := y }
      | none => info

/-- Standalone-month block of `_extract_from_filename`. -/
def ffMonthStep (t : List Char) (info : ExtractedInfo) : ExtractedInfo :=
  if info.month = "" then
    match scan1 patFnMonth t with
    | some m => if 1 ≤ m ∧ m ≤ 12 then { info with month := pad2 m } else info
    | none => info
  else info

/-- National-exam-keyword block of `_extract_from_filename`: month 11. -/
def ffSuneungStep (t : List Char) (info : ExtractedInfo) : ExtractedInfo :=
  if info.month = "" ∧ suneungKeywordsShort.any (fun kw => containsSub kw t) then
    { info with month := "11" }
  else info

/-- Subject block of `_extract_from_filename`: sub-category, then broad
category, then generic document keyword, all by substring search. -/
def ffSubjectStep (env : CategoryEnv) (t : List Char) (info : ExtractedInfo) :
    ExtractedInfo :=
  let info :=
    match env.subject_subcategories.find? (fun k => containsSub k t) with
    | some k => { info with subject_sub := k, subject := k }
    | none => info
  let info :=
    if info.subject = "" then
      match env.subject_categories.find? (fun k => containsSub k t) with
      | some k => { info with subject_main := k, subject := k }
      | none => info
    else info
  if info.subject = "" then
    match env.document_keywords.find? (fun k => containsSub k t) with
    | some k => { info with subject := k }
    | none => info
  else info

/-- Grade block of `_extract_from_filename`. -/
def ffGradeStep (t : List Char) (info : ExtractedInfo) : ExtractedInfo :=
  match gradeChain normalizeGradePfxFn filenameGradePatterns t with
  | some g => { info with grade := g }
  | none => info

/-- `FileProcessor._extract_from_filename`, applied to the filename stem
(`Path(filepath).stem` is taken by the caller): the year, month,
exam-keyword, subject and grade blocks in source order, starting from a fresh
filename-sourced record. -/
def extractFromFilename (env : CategoryEnv) (filename : String) : ExtractedInfo :=
  ffGradeStep filename.data
    (ffSubjectStep env filename.data
      (ffSuneungStep filename.data
        (ffMonthStep filename.data
          (ffYearStep filename.data { source := "filename" }))))

/-! ## `_merge_info` -/

/-- `FileProcessor._merge_info`. -/
def mergeInfo (primary secondary : ExtractedInfo) : ExtractedInfo :=
  let primary :=
    if secondary.source = "filename" then
      -- filename-derived information wins for date fields
      let primary :=
        if secondary.year ≠ "" ∧
            (primary.year = "" ∨ (secondary.month ≠ "" ∧ primary.month = "")) then
          { primary with year := secondary.year }
        else primary
      let primary :=
        if secondary.month ≠ "" then { primary with month := secondary.month }
        else primary
      if secondary.subject_sub ≠ "" then
        { primary with subject_sub := secondary.subject_sub,
                       subject := secondary.subject_sub }
      else if secondary.subject ≠ "" ∧ primary.subject = "" then
        { primary with subject := secondary.subject }
      else primary
    else
      -- fill-if-empty only
      let primary :=
        if primary.year = "" ∧ secondary.year ≠ "" then
          { primary with year := secondary.year }
        else primary
      let primary :=
        if primary.month = "" ∧ secondary.month ≠ "" then
          { primary with month := secondary.month }
        else primary
      let primary :=
        if primary.subject = "" ∧ secondary.subject ≠ "" then
          { primary with subject := secondary.subject }
        else primary
      let primary :=
        if primary.subject_main = "" ∧ secondary.subject_main ≠ "" then
          { primary with subject_main := secondary.subject_main }
        else primary
      if primary.subject_sub = "" ∧ secondary.subject_sub ≠ "" then
        { primary with subject_sub := secondary.subject_sub }
      else primary
  if primary.grade = "" ∧ secondary.grade ≠ "" then
    { primary with grade := secondary.grade }
  else primary

/-! ## `_analyze_hwp` and `analyze_file` -/

/-- `FileProcessor._analyze_hwp`: filename-first extraction; the body-text
subject scan (over externally decoded HWP/HWPX content) is taken as the
oracle input `contentSubject` (the keyword it would find, or `none`); then
the fixed confidence ladder. -/
def analyzeHwp (env : CategoryEnv) (filename : String)
    (contentSubject : Option String) : ExtractedInfo :=
  let info := { extractFromFilename env filename with source := "filename" }
  let info :=
    if info.subject = "" then
      match contentSubject with
      | some k => { info with subject := k }
      | none => info
    else info
  let conf : ℚ :=
    if info.year ≠ "" ∧ info.month ≠ "" ∧ info.subject ≠ "" then 0.9
    else if info.year ≠ "" ∧ info.month ≠ "" then 0.7
    else if info.year ≠ "" ∧ info.subject ≠ "" then 0.6
    else 0.3
  { info with confidence := conf }

/-- Modelled from the spec: the subject sub-category list
(`config.SUBJECT_SUBCATEGORIES`; the `config` module is not in the sources).
The spec describes fine-grained subjects such as specific science electives. -/
def SUBJECT_SUBCATEGORIES : List String :=
  ["물리학", "화학", "생명과학", "지구과학", "미적분", "확률과통계", "문학", "독서"]

/-- Modelled from the spec: the broad subject category list
(`config.SUBJECT_CATEGORIES`); the code itself refers to the broad categories
국어, 수학 and 영어 in its exam-period map, and its noise masking exists to
keep 수학 and 과학 from matching inside exam titles. -/
def SUBJECT_CATEGORIES : List String :=
  ["국어", "영어", "수학", "과학", "사회", "역사", "한국사"]

/-- Modelled from the spec: the generic document-type keyword list
(`config.DOCUMENT_KEYWORDS`); the code special-cases its members 문제지,
시험지, 평가문제 and 정답 as generic exam-artifact words. -/
def DOCUMENT_KEYWORDS : List String :=
  ["문제지", "시험지", "평가문제", "정답", "세특", "생기부", "회의록", "계획서"]

/-- The keyword configuration as modelled from the spec, with no
user-supplied keywords. -/
def specConfig : CategoryEnv :=
  { custom_keywords := [],
    subject_subcategories := SUBJECT_SUBCATEGORIES,
    subject_categories := SUBJECT_CATEGORIES,
    document_keywords := DOCUMENT_KEYWORDS }

/-- `FileProcessor.analyze_file`: the `try` block (format dispatch, filename
extraction and merge, all of which only compute the final `extracted_info`)
is modelled by its outcome `result`; a raised exception is `Except.error`
carrying `str(e)`. -/
def analyzeFile (result : Except String ExtractedInfo) (entry : FileEntry) :
    FileEntry :=
  match result with
  | Except.ok info =>
    { entry with
        extracted_info := info,
        status :=
          if (0.5 : ℚ) ≤ info.confidence then FileStatus.ready
          else FileStatus.needsCheck }
  | Except.error e =>
    { entry with
        status := FileStatus.error,
        error_message := e,
        extracted_info := {} }

/-- The per-batch analysis loop of `main.AnalyzeThread.run`: each entry is
analyzed independently in order. -/
def analyzeBatch (results : List (Except String ExtractedInfo))
    (entries : List FileEntry) : List FileEntry :=
  List.zipWith analyzeFile results entries

/-! ## `check_duplicates`

The file system is modelled as the list of paths that exist on disk; the
path-parent operation `Path(p).parent` is an abstract parameter. -/

/-- Python's `str.lower`, character-wise. -/
def lowerStr (s : String) : String := String.mk (s.data.map Char.toLower)

/-- The grouping key of `check_duplicates`:
`(dest_folder or parent(original_path), (proposed_name+extension).lower())`. -/
def dupKey (parent : String → String) (dest : Option String) (e : FileEntry) :
    String × String :=
  (dest.getD (parent e.original_path), lowerStr (e.proposed_name ++ e.extension))

/-- Append the `"(r)"` collision counter to an entry's proposed name and mark
it duplicate (the common rename of both `check_duplicates` passes). -/
def withDupSuffix (e : FileEntry) (r : Nat) : FileEntry :=
  { e with proposed_name := e.proposed_name ++ "(" ++ natStr r ++ ")",
           status := FileStatus.duplicate }

/-- First pass of `check_duplicates`: group by key; in every group, each entry
after the first gets `"(i)"` appended (its position in the group) and
duplicate status. -/
def checkDupPass1 (parent : String → String) (dest : Option String)
    (entries : List FileEntry) : List FileEntry :=
  entries.mapIdx fun i e =>
    let k := dupKey parent dest e
    let r := ((entries.take i).filter
      (fun e' => decide (dupKey parent dest e' = k))).length
    if r = 0 then e else withDupSuffix e r

/-- `Path(dir) / name`. -/
def joinPath (dir name : String) : String := dir ++ "/" ++ name

/-- The probing loop of `check_duplicates`' second pass: the least
`c ≥ start` whose candidate `name(c)+ext` does not exist.  The fuel
`fs.length + 1` always suffices since only `fs.length` paths exist. -/
def probeAux (fs : List String) (dir base ext : String) :
    Nat → Nat → Nat
  | 0, c => c
  | fuel + 1, c =>
    if fs.contains (joinPath dir (base ++ "(" ++ natStr c ++ ")" ++ ext)) then
      probeAux fs dir base ext fuel (c + 1)
    else c

/-- The target path of an entry: `Path(dest or parent(original)) / (name+ext)`. -/
def targetPath (parent : String → String) (dest : Option String)
    (e : FileEntry) : String :=
  joinPath (dest.getD (parent e.original_path)) (e.proposed_name ++ e.extension)

/-- One entry of `check_duplicates`' second pass: if the entry's target path
already exists on disk (and is not the entry's own path), probe
`(1)`, `(2)`, … until a free name is found. -/
def dupPass2Step (parent : String → String) (dest : Option String)
    (fs : List String) (e : FileEntry) : FileEntry :=
  if fs.contains (targetPath parent dest e) ∧
      targetPath parent dest e ≠ e.original_path then
    withDupSuffix e (probeAux fs (dest.getD (parent e.original_path))
      e.proposed_name e.extension (fs.length + 1) 1)
  else e

/-- Second pass of `check_duplicates`, entry by entry against the disk. -/
def checkDupPass2 (parent : String → String) (dest : Option String)
    (fs : List String) (entries : List FileEntry) : List FileEntry :=
  entries.map (dupPass2Step parent dest fs)

/-- `FileProcessor.check_duplicates`. -/
def checkDuplicates (parent : String → String) (dest : Option String)
    (fs : List String) (entries : List FileEntry) : List FileEntry :=
  checkDupPass2 parent dest fs (checkDupPass1 parent dest entries)

/-- Pairwise distinctness of proposed full names under case-insensitive
comparison within every target directory: no two entries share the duplicate
key `(directory, lowercased proposed_name + extension)`. -/
abbrev NamesDistinct (parent : String → String) (dest : Option String)
    (entries : List FileEntry) : Prop :=
  entries.Pairwise (fun a b => dupKey parent dest a ≠ dupKey parent dest b)

/-! ## `undo_last_rename`

The file system is modelled as an association list from paths to contents;
the log directory as the list of persisted transactions, most recent first. -/

/-- The two recorded operation kinds. -/
inductive OpType where
  | rename
  | copy
deriving DecidableEq, Repr

/-- One recorded operation of a `RenameTransaction`. -/
structure Operation where
  type : OpType
  old_path : String
  new_path : String
deriving DecidableEq, Repr

/-- `RenameTransaction` (dataclass in `src/processor.py`). -/
structure RenameTransaction where
  timestamp : String
  operations : List Operation := []
deriving DecidableEq, Repr

/-- A file system: paths with their contents. -/
abbrev Fs := List (String × String)

/-- Does a path exist? -/
def fsExists (fs : Fs) (p : String) : Bool := fs.any (fun e => e.1 = p)

/-- `Path.unlink`. -/
def fsUnlink (fs : Fs) (p : String) : Fs := fs.filter (fun e => !(e.1 = p : Bool))

/-- Content lookup. -/
def fsLookup (fs : Fs) (p : String) : Option String :=
  (fs.find? (fun e => e.1 = p)).map (·.2)

/-- `shutil.move(src, dst)` for files: the content at `src` ends at `dst`. -/
def fsMove (fs : Fs) (src dst : String) : Fs :=
  match fsLookup fs src with
  | some v =>
    (fs.filter (fun e => !(e.1 = src : Bool) && !(e.1 = dst : Bool))) ++ [(dst, v)]
  | none => fs

/-- State threaded through the undo loop. -/
structure UndoState where
  fs : Fs
  errors : List String := []
  success_count : Nat := 0
deriving Repr

/-- One iteration of the undo loop of `undo_last_rename`: if the new path
exists, a copy is deleted there and a rename is moved back; otherwise a
missing-file error is recorded. -/
def undoStep (st : UndoState) (op : Operation) : UndoState :=
  if fsExists st.fs op.new_path then
    match op.type with
    | OpType.copy =>
      { st with fs := fsUnlink st.fs op.new_path,
                success_count := st.success_count + 1 }
    | OpType.rename =>
      { st with fs := fsMove st.fs op.new_path op.old_path,
                success_count := st.success_count + 1 }
  else { st with errors := st.errors ++ ["파일 없음: " ++ op.new_path] }

/-- `FileProcessor.undo_last_rename`: process the most recent transaction's
operations in reverse order, then delete its log file unconditionally;
returns the new file system, the remaining logs, and the success flag
(`errors` empty). -/
def undoLastRename (fs : Fs) (logs : List RenameTransaction) :
    Fs × List RenameTransaction × Bool :=
  match logs with
  | [] => (fs, logs, false)
  | tx :: rest =>
    let st := tx.operations.reverse.foldl undoStep { fs := fs }
    (st.fs, rest, st.errors.isEmpty)

/-!
# Theorems
-/

/-! ## Merge policy: C4, C5, C10 -/

/-- **C4.**  For a filename-sourced secondary record: a non-empty
`secondary.month` always replaces `primary.month` (an empty one leaves it),
and `secondary.year` replaces `primary.year` exactly when `secondary.year` is
non-empty and (`primary.year` is empty, or `secondary.month` is non-empty
while `primary.month` is empty). -/
theorem mergeInfo_filename_date (p s : ExtractedInfo)
    (hs : s.source = "filename") :
    (s.month ≠ "" → (mergeInfo p s).month = s.month) ∧
    (s.month = "" → (mergeInfo p s).month = p.month) ∧
    ((mergeInfo p s).year =
      if s.year ≠ "" ∧ (p.year = "" ∨ (s.month ≠ "" ∧ p.month = "")) then s.year
      else p.year) := by
  refine ⟨?_, ?_, ?_⟩
  · intro h
    by_cases h1 : s.year = "" <;> by_cases h2 : p.year = "" <;>
      by_cases h4 : p.month = "" <;>
      simp [mergeInfo, hs, h, h1, h2, h4, apply_ite ExtractedInfo.month]
  · intro h
    by_cases h1 : s.year = "" <;> by_cases h2 : p.year = "" <;>
      by_cases h4 : p.month = "" <;>
      simp [mergeInfo, hs, h, h1, h2, h4, apply_ite ExtractedInfo.month]
  · by_cases h1 : s.year = "" <;> by_cases h2 : p.year = "" <;>
      by_cases h3 : s.month = "" <;> by_cases h4 : p.month = "" <;>
      simp [mergeInfo, hs, h1, h2, h3, h4, apply_ite ExtractedInfo.year]

/-- Witness for `mergeInfo_filename_date` at a concrete input. -/
theorem mergeInfo_filename_date_witness :
    (mergeInfo { year := "2020", month := "03" }
      { year := "2024", month := "07", source := "filename" }).month = "07" :=
  (mergeInfo_filename_date { year := "2020", month := "03" }
    { year := "2024", month := "07", source := "filename" } rfl).1 (by decide)

/-- **C5.**  Merging any record with a filename-sourced record whose year,
month, subject, subject-main, subject-sub and grade fields are all empty
returns the primary record unchanged. -/
theorem mergeInfo_empty_secondary_id (p s : ExtractedInfo)
    (hs : s.source = "filename")
    (h1 : s.year = "") (h2 : s.month = "") (h3 : s.subject = "")
    (h4 : s.subject_main = "") (h5 : s.subject_sub = "") (h6 : s.grade = "") :
    mergeInfo p s = p := by
  simp [mergeInfo, hs, h1, h2, h3, h5, h6]

/-- Witness for `mergeInfo_empty_secondary_id` at a concrete input. -/
theorem mergeInfo_empty_secondary_id_witness :
    mergeInfo
      { year := "2024학년도", month := "07", subject := "수학",
        confidence := 0.45, source := "content" }
      { source := "filename" } =
      { year := "2024학년도", month := "07", subject := "수학",
        confidence := 0.45, source := "content" } :=
  mergeInfo_empty_secondary_id _ _ rfl rfl rfl rfl rfl rfl rfl

/-- **C10.**  Merging never changes the primary record's confidence, source,
raw-text, header-text or smart-extraction fields (for any pair of records,
filename-sourced or not); in particular a filename-derived record contributes
no confidence. -/
theorem mergeInfo_frame (p s : ExtractedInfo) :
    (mergeInfo p s).confidence = p.confidence ∧
    (mergeInfo p s).source = p.source ∧
    (mergeInfo p s).raw_text = p.raw_text ∧
    (mergeInfo p s).header_text = p.header_text ∧
    (mergeInfo p s).is_smart_extracted = p.is_smart_extracted := by
  refine ⟨?_, ?_, ?_, ?_, ?_⟩ <;>
    simp [mergeInfo,
      apply_ite ExtractedInfo.confidence, apply_ite ExtractedInfo.source,
      apply_ite ExtractedInfo.raw_text, apply_ite ExtractedInfo.header_text,
      apply_ite ExtractedInfo.is_smart_extracted]

/-! ## Error containment: C8 -/

/-- **C8.**  `analyze_file` never propagates an exception of its analysis
body: on an error outcome the entry is marked `error` with the message
recorded and a fresh default `ExtractedInfo`; and the batch loop analyzes
every entry independently, so one entry's outcome never affects another's. -/
theorem analyzeFile_error_contained (e : String) (entry : FileEntry)
    (results : List (Except String ExtractedInfo))
    (entries : List FileEntry) (i : Nat) :
    ((analyzeFile (Except.error e) entry).status = FileStatus.error ∧
     (analyzeFile (Except.error e) entry).error_message = e ∧
     (analyzeFile (Except.error e) entry).extracted_info = {} ∧
     (analyzeFile (Except.error e) entry).original_path = entry.original_path) ∧
    (analyzeBatch results entries)[i]? =
      match results[i]?, entries[i]? with
      | some r, some en => some (analyzeFile r en)
      | _, _ => none := by
  constructor
  · exact ⟨rfl, rfl, rfl, rfl⟩
  · simp only [analyzeBatch, List.getElem?_zipWith]
    cases results[i]? <;> cases entries[i]? <;> rfl

/-! ## Decimal formatting support -/

lemma natDigitsAux_fuel_irrel :
    ∀ f₁ f₂ n, n < f₁ → n < f₂ → natDigitsAux f₁ n = natDigitsAux f₂ n := by
  intro f₁
  induction f₁ with
  | zero => intro f₂ n h; omega
  | succ g ih =>
    intro f₂ n h1 h2
    cases f₂ with
    | zero => omega
    | succ g₂ =>
      simp only [natDigitsAux]
      split_ifs with h10
      · rfl
      · have hlt : n / 10 < n := Nat.div_lt_self (by omega) (by omega)
        rw [ih g₂ (n / 10) (by omega) (by omega)]

lemma natDigits_eq (n : Nat) :
    natDigits n = if n < 10 then [Char.ofNat (48 + n)]
      else natDigits (n / 10) ++ [Char.ofNat (48 + n % 10)] := by
  by_cases h10 : n < 10
  · rw [if_pos h10]
    unfold natDigits
    simp [natDigitsAux, h10]
  · rw [if_neg h10]
    show natDigitsAux (n + 1) n = natDigitsAux (n / 10 + 1) (n / 10) ++ _
    rw [show natDigitsAux (n + 1) n =
        natDigitsAux n (n / 10) ++ [Char.ofNat (48 + n % 10)] from by
      simp [natDigitsAux, h10]]
    rw [natDigitsAux_fuel_irrel n (n / 10 + 1) (n / 10) (by omega) (by omega)]

lemma natDigits_ne_nil (n : Nat) : natDigits n ≠ [] := by
  rw [natDigits_eq]
  split_ifs <;> simp

lemma digitChar_inj (a b : Nat) (ha : a < 10) (hb : b < 10)
    (h : Char.ofNat (48 + a) = Char.ofNat (48 + b)) : a = b := by
  interval_cases a <;> interval_cases b <;> first | rfl | exact absurd h (by decide)

lemma natDigits_inj : ∀ m n : Nat, natDigits m = natDigits n → m = n := by
  intro m
  induction m using Nat.strong_induction_on with
  | _ m ih =>
    intro n h
    rw [natDigits_eq, natDigits_eq n] at h
    by_cases hm : m < 10 <;> by_cases hn : n < 10
    · rw [if_pos hm, if_pos hn] at h
      exact digitChar_inj m n hm hn (List.singleton_injective h)
    · rw [if_pos hm, if_neg hn] at h
      have hlen := congrArg List.length h
      simp only [List.length_singleton, List.length_append] at hlen
      have hpos : 0 < (natDigits (n / 10)).length :=
        List.length_pos.mpr (natDigits_ne_nil _)
      omega
    · rw [if_neg hm, if_pos hn] at h
      have hlen := congrArg List.length h
      simp only [List.length_singleton, List.length_append] at hlen
      have hpos : 0 < (natDigits (m / 10)).length :=
        List.length_pos.mpr (natDigits_ne_nil _)
      omega
    · rw [if_neg hm, if_neg hn] at h
      obtain ⟨h1, h2⟩ := List.append_inj' h (by rfl)
      have hd : m / 10 = n / 10 :=
        ih (m / 10) (Nat.div_lt_self (by omega) (by omega)) (n / 10) h1
      have hmod : m % 10 = n % 10 :=
        digitChar_inj _ _ (Nat.mod_lt _ (by omega)) (Nat.mod_lt _ (by omega))
          (List.singleton_injective h2)
      omega

lemma natStr_inj (m n : Nat) (h : natStr m = natStr n) : m = n :=
  natDigits_inj m n (congrArg String.data h)

lemma natDigits_mem_digit (n : Nat) :
    ∀ c ∈ natDigits n, 48 ≤ c.toNat ∧ c.toNat ≤ 57 := by
  induction n using Nat.strong_induction_on with
  | _ n ih =>
    intro c hc
    rw [natDigits_eq] at hc
    by_cases h10 : n < 10
    · rw [if_pos h10] at hc
      interval_cases n <;> simp_all <;> subst hc <;> decide
    · rw [if_neg h10] at hc
      rcases List.mem_append.mp hc with h | h
      · exact ih (n / 10) (Nat.div_lt_self (by omega) (by omega)) c h
      · have hm : n % 10 < 10 := Nat.mod_lt _ (by omega)
        simp only [List.mem_singleton] at h
        subst h
        interval_cases hh : n % 10 <;> decide

/-! ## Month validity: C1 -/

/-- A non-empty well-formed month string: the zero-padded print of an integer
in 1..12. -/
def ValidNE (s : String) : Prop := ∃ m, 1 ≤ m ∧ m ≤ 12 ∧ s = pad2 m

lemma validNE_11 : ValidNE "11" := ⟨11, by norm_num, by norm_num, by decide⟩

lemma pad2_validNE (m : Nat) (h1 : 1 ≤ m) (h2 : m ≤ 12) : ValidNE (pad2 m) :=
  ⟨m, h1, h2, rfl⟩

lemma monthChain_bounds (ps : List Pat) (t : List Char) (m : Nat)
    (h : monthChain ps t = some m) : 1 ≤ m ∧ m ≤ 12 := by
  induction ps with
  | nil => simp [monthChain] at h
  | cons p ps ih =>
    rw [monthChain, List.findSome?_cons] at h
    revert h
    cases scan1 p t with
    | none =>
      intro h
      exact ih (by rwa [monthChain])
    | some m' =>
      simp only []
      split_ifs with hm
      · intro h
        cases h
        exact hm
      · intro h
        exact ih (by rwa [monthChain])

lemma mapFind_validNE (map : List (String × String)) (t : List Char)
    (mv : String) (hmap : ∀ p ∈ map, ValidNE p.2)
    (h : map.findSome?
      (fun p => if containsSub p.1 t then some p.2 else none) = some mv) :
    ValidNE mv := by
  induction map with
  | nil => simp at h
  | cons p ps ih =>
    rw [List.findSome?_cons] at h
    revert h
    split_ifs with hc
    · intro h
      cases h
      exact hmap p (List.mem_cons_self _ _)
    · intro h
      exact ih (fun q hq => hmap q (List.mem_cons_of_mem _ hq)) h

lemma mockExamMonthMap_valid : ∀ p ∈ mockExamMonthMap, ValidNE p.2 := by
  intro p hp
  fin_cases hp <;>
    first
    | exact ⟨3, by norm_num, by norm_num, by decide⟩
    | exact ⟨4, by norm_num, by norm_num, by decide⟩
    | exact ⟨6, by norm_num, by norm_num, by decide⟩
    | exact ⟨7, by norm_num, by norm_num, by decide⟩
    | exact ⟨9, by norm_num, by norm_num, by decide⟩
    | exact ⟨10, by norm_num, by norm_num, by decide⟩
    | exact ⟨11, by norm_num, by norm_num, by decide⟩

lemma halfYearMap_valid : ∀ p ∈ halfYearMap, ValidNE p.2 := by
  intro p hp
  fin_cases hp <;>
    first
    | exact ⟨3, by norm_num, by norm_num, by decide⟩
    | exact ⟨6, by norm_num, by norm_num, by decide⟩
    | exact ⟨9, by norm_num, by norm_num, by decide⟩
    | exact ⟨12, by norm_num, by norm_num, by decide⟩

lemma extractMonthDetail_valid (text : String) :
    extractMonthDetail text = "" ∨ ValidNE (extractMonthDetail text) := by
  simp only [extractMonthDetail]
  repeat' split
  all_goals try (left; rfl)
  all_goals try (right; exact validNE_11)
  all_goals try (right; exact ⟨3, by norm_num, by norm_num, by decide⟩)
  all_goals try (right; exact ⟨4, by norm_num, by norm_num, by decide⟩)
  all_goals try (right; exact ⟨6, by norm_num, by norm_num, by decide⟩)
  all_goals try (right; exact ⟨9, by norm_num, by norm_num, by decide⟩)
  all_goals try (right; exact ⟨10, by norm_num, by norm_num, by decide⟩)
  all_goals try (right; exact ⟨12, by norm_num, by norm_num, by decide⟩)
  all_goals right
  all_goals rename_i hsome
  all_goals
    first
    | (obtain ⟨h1, h2⟩ := monthChain_bounds _ _ _ hsome
       exact pad2_validNE _ h1 h2)
    | exact mapFind_validNE _ _ _ mockExamMonthMap_valid hsome
    | exact mapFind_validNE _ _ _ halfYearMap_valid hsome

lemma datePriorityTiers_month (t : List Char) (i : ExtractedInfo) :
    (datePriorityTiers t i).1.month = i.month ∨
      ValidNE (datePriorityTiers t i).1.month := by
  unfold datePriorityTiers
  cases hmc : monthChain examMonthPatterns t with
  | some m =>
    dsimp only
    right
    obtain ⟨h1, h2⟩ := monthChain_bounds _ _ _ hmc
    cases scanStr patHaknyundo t with
    | some y => exact pad2_validNE _ h1 h2
    | none =>
      dsimp only
      cases scanStr patYearNyeon t with
      | some y => exact pad2_validNE _ h1 h2
      | none => exact pad2_validNE _ h1 h2
  | none =>
    dsimp only
    cases hhk : scanStr patHaknyundo t with
    | some y =>
      dsimp only
      cases hmw : scan1 patMonthWs t with
      | some m =>
        dsimp only
        by_cases hg : 1 ≤ m ∧ m ≤ 12
        · rw [if_pos hg]
          right
          exact pad2_validNE _ hg.1 hg.2
        · rw [if_neg hg]
          left
          rfl
      | none =>
        left
        rfl
    | none =>
      dsimp only
      cases hym : scanStrNat patYM3 t with
      | some ym =>
        obtain ⟨y, m⟩ := ym
        dsimp only
        by_cases hg : 1 ≤ m ∧ m ≤ 12
        · rw [if_pos hg]
          right
          exact pad2_validNE _ hg.1 hg.2
        · rw [if_neg hg]
          left
          rfl
      | none =>
        dsimp only
        by_cases hy : i.year = ""
        · rw [if_pos hy]
          cases tier4Year t with
          | some y =>
            left
            rfl
          | none =>
            left
            rfl
        · rw [if_neg hy]
          left
          rfl

lemma dpMonthDetailStep_month (h : String) (x : ExtractedInfo × ℚ) :
    (dpMonthDetailStep h x).1.month = x.1.month ∨
      ValidNE (dpMonthDetailStep h x).1.month := by
  simp only [dpMonthDetailStep]
  split_ifs with h1 h2
  · rcases extractMonthDetail_valid h with he | hv
    · exact absurd he h2
    · right
      exact hv
  · left
    rfl
  · left
    rfl

lemma dpGradeStepP_month (t : List Char) (x : ExtractedInfo × ℚ) :
    (dpGradeStepP t x).1.month = x.1.month := by
  unfold dpGradeStepP dpGradeStep
  repeat' split
  all_goals rfl

lemma dpRetryYear_month (ns : List Char) (x : ExtractedInfo × ℚ) :
    (dpRetryYear ns x).1.month = x.1.month := by
  unfold dpRetryYear
  repeat' split
  all_goals rfl

lemma dpRetryMonth_month (ns : List Char) (x : ExtractedInfo × ℚ) :
    (dpRetryMonth ns x).1.month = x.1.month ∨
      ValidNE (dpRetryMonth ns x).1.month := by
  unfold dpRetryMonth
  repeat' split
  all_goals try (left; rfl)
  all_goals rename_i hcond
  all_goals right
  all_goals exact pad2_validNE _ hcond.1 hcond.2

lemma dpRetryGradeP_month (ns : List Char) (x : ExtractedInfo × ℚ) :
    (dpRetryGradeP ns x).1.month = x.1.month := by
  unfold dpRetryGradeP dpRetryGrade
  repeat' split
  all_goals rfl

lemma extractDatePriority_month (h : String) (i : ExtractedInfo) :
    (extractDatePriority h i).1.month = i.month ∨
      ValidNE (extractDatePriority h i).1.month := by
  rw [extractDatePriority]
  rw [dpRetryGradeP_month]
  rcases dpRetryMonth_month (h.data.filter (fun c => !(isWsChar c)))
      (dpRetryYear (h.data.filter (fun c => !(isWsChar c)))
        (dpGradeStepP h.data (dpMonthDetailStep h (datePriorityTiers h.data i)))) with
    hm | hv
  · rw [hm, dpRetryYear_month, dpGradeStepP_month]
    rcases dpMonthDetailStep_month h (datePriorityTiers h.data i) with hm2 | hv2
    · rw [hm2]
      exact datePriorityTiers_month h.data i
    · right
      exact hv2
  · right
    exact hv

lemma ffYearStep_month (t : List Char) (i : ExtractedInfo) :
    (ffYearStep t i).month = i.month ∨ ValidNE (ffYearStep t i).month := by
  unfold ffYearStep
  repeat' split
  all_goals try (left; rfl)
  all_goals rename_i hcond
  all_goals right
  all_goals exact pad2_validNE _ hcond.1 hcond.2

lemma ffMonthStep_month (t : List Char) (i : ExtractedInfo) :
    (ffMonthStep t i).month = i.month ∨ ValidNE (ffMonthStep t i).month := by
  unfold ffMonthStep
  repeat' split
  all_goals try (left; rfl)
  all_goals rename_i hcond
  all_goals right
  all_goals exact pad2_validNE _ hcond.1 hcond.2

lemma ffSuneungStep_month (t : List Char) (i : ExtractedInfo) :
    (ffSuneungStep t i).month = i.month ∨ ValidNE (ffSuneungStep t i).month := by
  unfold ffSuneungStep
  split_ifs
  · right
    exact validNE_11
  · left
    rfl

lemma ffSubjectStep_month (env : CategoryEnv) (t : List Char)
    (i : ExtractedInfo) : (ffSubjectStep env t i).month = i.month := by
  simp only [ffSubjectStep]
  repeat' split
  all_goals rfl

lemma ffGradeStep_month (t : List Char) (i : ExtractedInfo) :
    (ffGradeStep t i).month = i.month := by
  unfold ffGradeStep
  repeat' split
  all_goals rfl

lemma extractFromFilename_month (env : CategoryEnv) (fn : String) :
    (extractFromFilename env fn).month = "" ∨
      ValidNE (extractFromFilename env fn).month := by
  rw [extractFromFilename, ffGradeStep_month, ffSubjectStep_month]
  rcases ffSuneungStep_month fn.data
      (ffMonthStep fn.data (ffYearStep fn.data { source := "filename" })) with
    h1 | hv
  · rw [h1]
    rcases ffMonthStep_month fn.data
        (ffYearStep fn.data { source := "filename" }) with h2 | hv
    · rw [h2]
      rcases ffYearStep_month fn.data { source := "filename" } with h3 | hv
      · rw [h3]
        left
        rfl
      · right
        exact hv
    · right
      exact hv
  · right
    exact hv

lemma dftYearStep_month (t : List Char) (x : ExtractedInfo × ℚ) :
    (dftYearStep t x).1.month = x.1.month := by
  simp only [dftYearStep]
  repeat' split
  all_goals rfl

lemma dftMonthStep_month (t : List Char) (x : ExtractedInfo × ℚ) :
    (dftMonthStep t x).1.month = x.1.month ∨
      ValidNE (dftMonthStep t x).1.month := by
  simp only [dftMonthStep]
  repeat' split
  all_goals try (left; rfl)
  all_goals rename_i hcond
  all_goals right
  all_goals exact pad2_validNE _ hcond.1 hcond.2

lemma dftSuneungStep_month (t : List Char) (x : ExtractedInfo × ℚ) :
    (dftSuneungStep t x).1.month = x.1.month ∨
      ValidNE (dftSuneungStep t x).1.month := by
  unfold dftSuneungStep
  split_ifs
  · right
    exact validNE_11
  · left
    rfl

lemma extractDateFromText_month (text : String) (j : ExtractedInfo) :
    (extractDateFromText text j).month = j.month ∨
      ValidNE (extractDateFromText text j).month := by
  have hfinal : (extractDateFromText text j).month =
      (dftSuneungStep text.data
        (dftMonthStep text.data
          (dftYearStep text.data (j, j.confidence)))).1.month := rfl
  rw [hfinal]
  rcases dftSuneungStep_month text.data
      (dftMonthStep text.data (dftYearStep text.data (j, j.confidence))) with
    h1 | hv
  · rw [h1]
    rcases dftMonthStep_month text.data
        (dftYearStep text.data (j, j.confidence)) with h2 | hv
    · rw [h2, dftYearStep_month]
      left
      rfl
    · right
      exact hv
  · right
    exact hv

lemma pad2_shape (m : Nat) (h1 : 1 ≤ m) (h2 : m ≤ 12) :
    (pad2 m).length = 2 ∧ capNat (pad2 m).data = m := by
  interval_cases m <;> exact ⟨by decide, by decide⟩

/-- **C1.**  Every month value stored by any extraction procedure — the
content date extractor (including its month-detail sub-procedure and its
whitespace-stripped retry pass), the standalone month-detail procedure, the
text fallback extractor and the filename extractor — is either the empty
string, or left as it came in, or the zero-padded print of an integer in
1..12; such a print is a two-character string whose integer value is the
month.  No out-of-range month is ever stored. -/
theorem month_always_valid (h : String) (i : ExtractedInfo) (text : String)
    (j : ExtractedInfo) (env : CategoryEnv) (fn : String) :
    ((extractDatePriority h i).1.month = i.month ∨
      ValidNE (extractDatePriority h i).1.month) ∧
    (extractMonthDetail text = "" ∨ ValidNE (extractMonthDetail text)) ∧
    ((extractDateFromText text j).month = j.month ∨
      ValidNE (extractDateFromText text j).month) ∧
    ((extractFromFilename env fn).month = "" ∨
      ValidNE (extractFromFilename env fn).month) ∧
    (∀ m, 1 ≤ m → m ≤ 12 → (pad2 m).length = 2 ∧ capNat (pad2 m).data = m) :=
  ⟨extractDatePriority_month h i, extractMonthDetail_valid text,
   extractDateFromText_month text j, extractFromFilename_month env fn,
   fun m h1 h2 => pad2_shape m h1 h2⟩

/-! ## Confidence clamping: C2 -/

lemma tiers_nonneg (t : List Char) (i : ExtractedInfo) :
    0 ≤ (datePriorityTiers t i).2 := by
  unfold datePriorityTiers
  repeat' split
  all_goals norm_num

lemma dpMonthDetailStep_nonneg (h : String) (x : ExtractedInfo × ℚ)
    (hx : 0 ≤ x.2) : 0 ≤ (dpMonthDetailStep h x).2 := by
  simp only [dpMonthDetailStep, apply_ite Prod.snd]
  split_ifs <;> simp_all <;> linarith

lemma dpRetryYear_nonneg (ns : List Char) (x : ExtractedInfo × ℚ)
    (hx : 0 ≤ x.2) : 0 ≤ (dpRetryYear ns x).2 := by
  simp only [dpRetryYear]
  split_ifs
  · split <;> simp_all <;> linarith
  · exact hx

lemma dpRetryMonth_nonneg (ns : List Char) (x : ExtractedInfo × ℚ)
    (hx : 0 ≤ x.2) : 0 ≤ (dpRetryMonth ns x).2 := by
  simp only [dpRetryMonth]
  split_ifs
  · split
    · split_ifs <;> simp_all <;> linarith
    · exact hx
  · exact hx

lemma dpRetryGradeP_snd (ns : List Char) (x : ExtractedInfo × ℚ) :
    (dpRetryGradeP ns x).2 = x.2 := rfl

lemma dpGradeStepP_snd (t : List Char) (x : ExtractedInfo × ℚ) :
    (dpGradeStepP t x).2 = x.2 := rfl

lemma extractDatePriority_conf_nonneg (h : String) (i : ExtractedInfo) :
    0 ≤ (extractDatePriority h i).2 := by
  rw [extractDatePriority, dpRetryGradeP_snd]
  apply dpRetryMonth_nonneg
  apply dpRetryYear_nonneg
  rw [dpGradeStepP_snd]
  apply dpMonthDetailStep_nonneg
  apply tiers_nonneg

lemma extractCategory_conf_nonneg (env : CategoryEnv) (b s : Option String)
    (hl : List String) (ht : String) (info : ExtractedInfo) :
    0 ≤ (extractCategory env b s hl ht info).2 := by
  unfold extractCategory
  repeat' split
  all_goals try norm_num
  all_goals split_ifs <;> norm_num

/-- **C2.**  The confidence of the record produced by the analysis pipeline
lies in `[0, 1]` for every input text, starting record and configuration:
`_extract_metadata` clamps its additively accumulated confidence, and the
confidence ladder of `_analyze_hwp` (which sets confidence directly) also
stays inside the interval. -/
theorem confidence_clamped (env : CategoryEnv) (b s ttl : Option String)
    (text : String) (info : ExtractedInfo) (fn : String) (cs : Option String) :
    (0 ≤ (extractMetadata env b s ttl text info).confidence ∧
      (extractMetadata env b s ttl text info).confidence ≤ 1) ∧
    (0 ≤ (analyzeHwp env fn cs).confidence ∧
      (analyzeHwp env fn cs).confidence ≤ 1) := by
  constructor
  · simp only [extractMetadata]
    constructor
    · exact le_min
        (add_nonneg (extractDatePriority_conf_nonneg _ _)
          (extractCategory_conf_nonneg _ _ _ _ _ _))
        (by norm_num)
    · exact min_le_right _ _
  · unfold analyzeHwp
    repeat' split
    all_goals try norm_num
    all_goals split_ifs <;> norm_num

/-! ## Date-priority tier 3 and the day-token exclusion: C7 -/

lemma pad2_ne_empty (m : Nat) : pad2 m ≠ "" := by
  unfold pad2
  split_ifs
  · intro h
    have hl := congrArg String.length h
    simp [String.length_append] at hl
    exact absurd hl.1 (by decide)
  · intro h
    exact natDigits_ne_nil m (congrArg String.data h)

lemma dpGradeStepP_year (t : List Char) (x : ExtractedInfo × ℚ) :
    (dpGradeStepP t x).1.year = x.1.year := by
  unfold dpGradeStepP dpGradeStep
  repeat' split
  all_goals rfl

lemma dpRetryGradeP_year (ns : List Char) (x : ExtractedInfo × ℚ) :
    (dpRetryGradeP ns x).1.year = x.1.year := by
  unfold dpRetryGradeP dpRetryGrade
  repeat' split
  all_goals rfl

lemma dpMonthDetailStep_of_month_ne (h : String) (x : ExtractedInfo × ℚ)
    (hm : x.1.month ≠ "") : dpMonthDetailStep h x = x := by
  unfold dpMonthDetailStep
  exact if_neg (fun hc => hm hc.2)

lemma dpRetryYear_of_year_ne (ns : List Char) (x : ExtractedInfo × ℚ)
    (hy : ¬ x.1.year = "") : dpRetryYear ns x = x := by
  unfold dpRetryYear
  exact if_neg hy

lemma dpRetryMonth_of_month_ne (ns : List Char) (x : ExtractedInfo × ℚ)
    (hm : ¬ x.1.month = "") : dpRetryMonth ns x = x := by
  unfold dpRetryMonth
  exact if_neg hm

/-- **C7.**  In the date priority chain: when tiers 1 and 2 find nothing and
tier 3's canonical year-month pattern matches with a captured month in
`[1,12]`, the result carries that year and zero-padded month with confidence
exactly `0.35`; and a candidate whose month marker is immediately followed by
a day token is excluded — on the header `2025년 5월 10일`, whose only
year-month occurrence has a trailing day token, the tier-3 scan finds
nothing, and the chain instead ends with tier-4 year weight `0.2` plus the
month-detail increment `0.1` (confidence `0.3`, not `0.35`). -/
theorem tier3_day_token_excluded (t : String) (info : ExtractedInfo)
    (y : String) (m : Nat) :
    (monthChain examMonthPatterns t.data = none →
      scanStr patHaknyundo t.data = none →
      scanStrNat patYM3 t.data = some (y, m) →
      y ≠ "" → 1 ≤ m → m ≤ 12 →
      (extractDatePriority t info).1.year = y ∧
      (extractDatePriority t info).1.month = pad2 m ∧
      (extractDatePriority t info).2 = 0.35) ∧
    (scanStrNat patYM3 "2025년 5월 10일".data = none ∧
      (extractDatePriority "2025년 5월 10일" {}).1.year = "2025" ∧
      (extractDatePriority "2025년 5월 10일" {}).2 = 0.3) := by
  constructor
  · intro hmc hhk hym hy hm1 hm2
    have htiers : datePriorityTiers t.data info =
        ({ info with year := y, month := pad2 m }, 0.35) := by
      unfold datePriorityTiers
      rw [hmc]
      dsimp only
      rw [hhk]
      dsimp only
      rw [hym]
      dsimp only
      rw [if_pos ⟨hm1, hm2⟩]
    have hmth : ({ info with year := y, month := pad2 m } :
        ExtractedInfo).month ≠ "" := pad2_ne_empty m
    have h1 : dpMonthDetailStep t (datePriorityTiers t.data info) =
        ({ info with year := y, month := pad2 m }, 0.35) := by
      rw [htiers]
      exact dpMonthDetailStep_of_month_ne _ _ hmth
    rw [extractDatePriority, h1]
    have hy2 : ¬ (dpGradeStepP t.data
        (({ info with year := y, month := pad2 m }, 0.35) :
          ExtractedInfo × ℚ)).1.year = "" := by
      rw [dpGradeStepP_year]
      exact hy
    rw [dpRetryYear_of_year_ne _ _ hy2]
    have hm2' : ¬ (dpGradeStepP t.data
        (({ info with year := y, month := pad2 m }, 0.35) :
          ExtractedInfo × ℚ)).1.month = "" := by
      rw [dpGradeStepP_month]
      exact pad2_ne_empty m
    rw [dpRetryMonth_of_month_ne _ _ hm2']
    refine ⟨?_, ?_, ?_⟩
    · rw [dpRetryGradeP_year, dpGradeStepP_year]
    · rw [dpRetryGradeP_month, dpGradeStepP_month]
    · rw [dpRetryGradeP_snd, dpGradeStepP_snd]
  · refine ⟨by decide, by decide, ?_⟩
    have h : (extractDatePriority "2025년 5월 10일" {}).2 = 0.2 + 0.1 := rfl
    rw [h]
    norm_num

/-- Witness for `tier3_day_token_excluded` at a concrete tier-3 header. -/
theorem tier3_day_token_excluded_witness :
    (extractDatePriority "2023년 11월 급식" {}).1.year = "2023" ∧
    (extractDatePriority "2023년 11월 급식" {}).1.month = pad2 11 ∧
    (extractDatePriority "2023년 11월 급식" {}).2 = 0.35 :=
  (tier3_day_token_excluded "2023년 11월 급식" {} "2023" 11).1
    (by decide) (by decide) (by decide) (by decide) (by norm_num) (by norm_num)

/-! ## National-exam title handling: C6 -/

/-- **C6, counterexample.**  A header consisting of exactly the formal
national-exam title — so it contains the title and no other year or month
information — yields an *empty* month from the content pipeline, not `"11"`:
the exam-keyword fallback of `_extract_date_priority` runs only when a year
was found first, and this header has none. -/
theorem suneung_title_only_no_month :
    containsSub "대학수학능력시험" "대학수학능력시험".data = true ∧
    (extractMetadata specConfig none none none "대학수학능력시험" {}).month = "" ∧
    (extractMetadata specConfig none none none "대학수학능력시험" {}).year = "" :=
  ⟨by decide, by decide, by decide⟩

/-- **C6, amended.**  For every header text containing the formal
national-exam title, if the month-detail sub-procedure runs and its two
earlier tiers find nothing, it yields month `"11"` via the exam-keyword
fallback; on a full header that additionally carries a year
(`2026학년도 대학수학능력시험 문제지`) the content pipeline stores month
`"11"` and year `"2026학년도"`, and the title's substrings are not misread as
a math or science subject keyword: the title is masked out before subject
matching, so the subject is the document keyword `문제지` and both subject
categories stay empty, even though `수학` does occur in the raw header. -/
theorem suneung_fallback_month_11 (t : String) :
    (monthChain examMonthPatterns t.data = none →
      monthChain [patMD1, patMD2] t.data = none →
      containsSub "대학수학능력시험" t.data = true →
      extractMonthDetail t = "11") ∧
    ((extractMetadata specConfig none none none
        "2026학년도 대학수학능력시험 문제지" {}).month = "11" ∧
      (extractMetadata specConfig none none none
        "2026학년도 대학수학능력시험 문제지" {}).year = "2026학년도" ∧
      (extractMetadata specConfig none none none
        "2026학년도 대학수학능력시험 문제지" {}).subject = "문제지" ∧
      (extractMetadata specConfig none none none
        "2026학년도 대학수학능력시험 문제지" {}).subject_main = "" ∧
      (extractMetadata specConfig none none none
        "2026학년도 대학수학능력시험 문제지" {}).subject_sub = "") ∧
    (containsSub "수학" "2026학년도 대학수학능력시험 문제지".data = true ∧
      containsSub "수학"
        (maskNoise "2026학년도 대학수학능력시험 문제지".data) = false) := by
  refine ⟨?_, ⟨by decide, by decide, by decide, by decide, by decide⟩,
    by decide, by decide⟩
  intro hmc hmd hcs
  simp only [extractMonthDetail]
  rw [hmc]
  dsimp only
  rw [hmd]
  dsimp only
  rw [if_pos]
  simp [suneungKeywordsDetail, List.any_cons, hcs]

/-- Witness for `suneung_fallback_month_11` at a concrete header carrying the
title and an academic-year token. -/
theorem suneung_fallback_month_11_witness :
    extractMonthDetail "2026학년도 대학수학능력시험" = "11" :=
  (suneung_fallback_month_11 "2026학년도 대학수학능력시험").1
    (by decide) (by decide) (by decide)

/-! ## Duplicate resolution: C3 -/

lemma dupPass2Step_of_not_on_disk (parent : String → String)
    (dest : Option String) (fs : List String) (e : FileEntry)
    (h : fs.contains (targetPath parent dest e) = false) :
    dupPass2Step parent dest fs e = e := by
  have h' : targetPath parent dest e ∉ fs := by simpa using h
  simp [dupPass2Step, h']

lemma checkDupPass2_nil (parent : String → String) (dest : Option String)
    (es : List FileEntry) : checkDupPass2 parent dest [] es = es := by
  unfold checkDupPass2
  have h : ∀ e ∈ es, dupPass2Step parent dest [] e = id e := fun e _ =>
    dupPass2Step_of_not_on_disk parent dest [] e rfl
  rw [List.map_congr_left h, List.map_id]

lemma checkDupPass2_getElem (parent : String → String) (dest : Option String)
    (fs : List String) (es : List FileEntry) (i : Nat) :
    (checkDupPass2 parent dest fs es)[i]? =
      es[i]?.map (dupPass2Step parent dest fs) := by
  simp [checkDupPass2, List.getElem?_map]

/-- **C3, counterexample.**  `check_duplicates` does not always produce
pairwise-distinct names: in a batch of three entries proposed `report`,
`report`, `report(1)` (same directory, same extension, no pre-existing
files), the first pass renames the second entry to `report(1)`, which
collides with the third entry's untouched name — the in-memory pass only
suffixes within a group and never re-checks against other groups. -/
theorem checkDuplicates_not_pairwise_distinct :
    ¬ NamesDistinct (fun _ => "") (some "d")
      (checkDuplicates (fun _ => "") (some "d") []
        [{ original_path := "a1", original_name := "r", extension := ".ext",
           proposed_name := "report" },
         { original_path := "a2", original_name := "r", extension := ".ext",
           proposed_name := "report" },
         { original_path := "a3", original_name := "r", extension := ".ext",
           proposed_name := "report(1)" }]) := by
  decide

lemma toLower_digit_fixed (c : Char) (h1 : 48 ≤ c.toNat) (h2 : c.toNat ≤ 57) :
    c.toLower = c := by
  simp only [Char.toLower]
  rw [if_neg]
  omega

lemma map_toLower_natDigits (r : Nat) :
    (natDigits r).map Char.toLower = natDigits r := by
  have h : ∀ c ∈ natDigits r, Char.toLower c = c := fun c hc =>
    toLower_digit_fixed c (natDigits_mem_digit r c hc).1
      (natDigits_mem_digit r c hc).2
  calc (natDigits r).map Char.toLower = (natDigits r).map id :=
        List.map_congr_left h
    _ = natDigits r := List.map_id _

lemma paren_not_mem_natDigits (r : Nat) : '(' ∉ natDigits r := by
  intro h
  have := (natDigits_mem_digit r _ h).1
  have hc : ('(' : Char).toNat = 40 := by decide
  omega

lemma rank_lt {α : Type} (p : α → Bool) (l : List α) (i j : Nat)
    (hij : i < j) (hj : j < l.length) (hpi : p (l.get ⟨i, by omega⟩) = true) :
    ((l.take i).filter p).length < ((l.take j).filter p).length := by
  have h1 : l.take (i + 1) = l.take i ++ [l.get ⟨i, by omega⟩] := by
    rw [List.take_succ]
    simp [List.getElem?_eq_getElem (show i < l.length by omega)]
  have h2 : ((l.take (i + 1)).filter p).length =
      ((l.take i).filter p).length + 1 := by
    rw [h1, List.filter_append]
    simp only [List.get_eq_getElem] at hpi
    simp [hpi]
  have hpre : l.take (i + 1) <+: l.take j := by
    have := List.take_prefix (i + 1) (l.take j)
    rwa [List.take_take, min_eq_left (by omega)] at this
  have h3 : List.Sublist ((l.take (i + 1)).filter p)
      ((l.take j).filter p) :=
    List.Sublist.filter p hpre.sublist
  have h4 := h3.length_le
  omega

lemma wrapShiftAux (D₁ D₂ : List Char) (h1 : '(' ∉ D₁) :
    ∀ n, ∀ M : List Char, M.length ≤ n →
      ('(' :: (D₁ ++ [')'])) ++ M = M ++ ('(' :: (D₂ ++ [')'])) → D₁ = D₂ := by
  intro n
  induction n with
  | zero =>
    intro M hM h
    have hMnil : M = [] := List.eq_nil_of_length_eq_zero (by omega)
    subst hMnil
    simp only [List.append_nil, List.nil_append, List.cons.injEq] at h
    exact (List.append_inj' h.2 rfl).1
  | succ n ih =>
    intro M hM h
    rcases List.append_eq_append_iff.mp h with ⟨a', ha1, ha2⟩ | ⟨c', hc1, hc2⟩
    · have hx : ('(' :: (D₁ ++ [')'])) ++ a' = a' ++ ('(' :: (D₂ ++ [')'])) := by
        rw [← ha1, ha2]
      have hlen : a'.length ≤ n := by
        have := congrArg List.length ha1
        simp [List.length_append] at this
        omega
      exact ih a' hlen hx
    · cases hM0 : M with
      | nil =>
        subst hM0
        simp only [List.nil_append, List.append_nil] at hc1 hc2
        have hxy := hc2.trans hc1.symm
        simp only [List.cons.injEq] at hxy
        exact ((List.append_inj' hxy.2 rfl).1).symm
      | cons m M₂ =>
        subst hM0
        cases hc0 : c' with
        | nil =>
          subst hc0
          simp only [List.append_nil, List.nil_append] at hc1 hc2
          rw [← hc1] at hc2
          simp only [List.cons.injEq] at hc2
          exact ((List.append_inj' hc2.2 rfl).1).symm
        | cons e cs =>
          subst hc0
          exfalso
          have he : e = '(' := by
            have := hc2
            simp only [List.cons_append, List.cons.injEq] at this
            exact this.1.symm
          subst he
          have hx := hc1
          simp only [List.cons_append, List.cons.injEq] at hx
          have hmem : '(' ∈ D₁ ++ [')'] := by
            rw [hx.2]
            exact List.mem_append_right _ (List.mem_cons_self _ _)
          rcases List.mem_append.mp hmem with hin | hin
          · exact h1 hin
          · simp at hin

lemma wrapShift (D₁ D₂ M : List Char) (h1 : '(' ∉ D₁)
    (h : ('(' :: (D₁ ++ [')'])) ++ M = M ++ ('(' :: (D₂ ++ [')']))) : D₁ = D₂ :=
  wrapShiftAux D₁ D₂ h1 M.length M (le_refl _) h

lemma lowerStr_append (a b : String) :
    lowerStr (a ++ b) = lowerStr a ++ lowerStr b := by
  simp only [lowerStr, String.data_append, List.map_append]
  rfl

lemma lowerStr_data_append (a b : String) :
    (lowerStr (a ++ b)).data = (lowerStr a).data ++ (lowerStr b).data := by
  rw [lowerStr_append, String.data_append]

lemma lowerStr_suffix_data (pn : String) (r : Nat) :
    (lowerStr (pn ++ "(" ++ natStr r ++ ")")).data =
      (lowerStr pn).data ++ ('(' :: (natDigits r ++ [')'])) := by
  rw [lowerStr_data_append, lowerStr_data_append, lowerStr_data_append]
  have h1 : (lowerStr "(").data = ['('] := by decide
  have h2 : (lowerStr ")").data = [')'] := by decide
  have h3 : (lowerStr (natStr r)).data = natDigits r := by
    simp only [lowerStr, natStr]
    exact map_toLower_natDigits r
  rw [h1, h2, h3]
  simp

lemma suffixed_full_names_distinct (A Ei B Ej : List Char) (ri rj : Nat)
    (hkey : A ++ Ei = B ++ Ej) (hlt : ri < rj) :
    (if ri = 0 then A ++ Ei else A ++ (('(' :: (natDigits ri ++ [')'])) ++ Ei)) ≠
      B ++ (('(' :: (natDigits rj ++ [')'])) ++ Ej) := by
  intro hfull
  by_cases hri : ri = 0
  · rw [if_pos hri] at hfull
    have hl1 := congrArg List.length hfull
    have hl2 := congrArg List.length hkey
    simp only [List.length_append, List.length_cons] at hl1 hl2
    omega
  · rw [if_neg hri] at hfull
    rcases List.append_eq_append_iff.mp hkey with ⟨M, hb, he⟩ | ⟨M, ha, he⟩
    · subst hb
      subst he
      have hmid : ('(' :: (natDigits ri ++ [')'])) ++ M =
          M ++ ('(' :: (natDigits rj ++ [')'])) := by
        have h := hfull
        rw [show A ++ (('(' :: (natDigits ri ++ [')'])) ++ (M ++ Ej)) =
            A ++ ((('(' :: (natDigits ri ++ [')'])) ++ M) ++ Ej) by simp,
          show A ++ M ++ (('(' :: (natDigits rj ++ [')'])) ++ Ej) =
            A ++ ((M ++ ('(' :: (natDigits rj ++ [')']))) ++ Ej) by simp] at h
        exact List.append_cancel_right (List.append_cancel_left h)
      have := natDigits_inj ri rj
        (wrapShift _ _ M (paren_not_mem_natDigits ri) hmid)
      omega
    · subst ha
      subst he
      have hmid : ('(' :: (natDigits rj ++ [')'])) ++ M =
          M ++ ('(' :: (natDigits ri ++ [')'])) := by
        have h := hfull.symm
        rw [show B ++ (('(' :: (natDigits rj ++ [')'])) ++ (M ++ Ei)) =
            B ++ ((('(' :: (natDigits rj ++ [')'])) ++ M) ++ Ei) by simp,
          show B ++ M ++ (('(' :: (natDigits ri ++ [')'])) ++ Ei) =
            B ++ ((M ++ ('(' :: (natDigits ri ++ [')']))) ++ Ei) by simp] at h
        exact List.append_cancel_right (List.append_cancel_left h)
      have := natDigits_inj rj ri
        (wrapShift _ _ M (paren_not_mem_natDigits rj) hmid)
      omega

lemma checkDuplicates_nil_fs (p : String → String) (d : Option String)
    (es : List FileEntry) : checkDuplicates p d [] es = checkDupPass1 p d es := by
  unfold checkDuplicates
  rw [checkDupPass2_nil]

lemma checkDupPass1_length (p : String → String) (d : Option String)
    (es : List FileEntry) : (checkDupPass1 p d es).length = es.length := by
  simp [checkDupPass1]

lemma checkDupPass1_getElem (p : String → String) (d : Option String)
    (es : List FileEntry) (i : Nat) (e : FileEntry) (he : es[i]? = some e) :
    (checkDupPass1 p d es)[i]? = some
      (if ((es.take i).filter
          (fun e' => decide (dupKey p d e' = dupKey p d e))).length = 0
       then e
       else withDupSuffix e
         ((es.take i).filter
           (fun e' => decide (dupKey p d e' = dupKey p d e))).length) := by
  simp [checkDupPass1, List.getElem?_mapIdx, he]

lemma dupKey_snd_data (p : String → String) (d : Option String) (e : FileEntry) :
    (dupKey p d e).2.data =
      (lowerStr e.proposed_name).data ++ (lowerStr e.extension).data := by
  simp [dupKey, lowerStr_data_append]

/-- **C3, amended.**  Within each duplicate group — entries sharing the same
target directory and case-insensitive proposed full name — the in-memory pass
of `check_duplicates` assigns pairwise-distinct case-insensitive full names
(the later member gets a strictly larger counter, and a suffixed name can
never coincide with another group member's name), and two group members end
up with distinct names whenever neither member's pass-1 target path already
exists on disk, so that the disk-probing second pass — which renames only
against the disk, never against the other entries — leaves both unchanged. -/
theorem checkDuplicates_same_group_distinct
    (parent : String → String) (dest : Option String) (fs : List String)
    (entries : List FileEntry)
    (i j : Nat) (hij : i < j) (hj : j < entries.length)
    (hkey : entries[i]?.map (dupKey parent dest) =
            entries[j]?.map (dupKey parent dest))
    (hfi : (checkDupPass1 parent dest entries)[i]?.map
      (fun e => fs.contains (targetPath parent dest e)) = some false)
    (hfj : (checkDupPass1 parent dest entries)[j]?.map
      (fun e => fs.contains (targetPath parent dest e)) = some false) :
    (checkDuplicates parent dest fs entries)[i]?.map (dupKey parent dest) ≠
      (checkDuplicates parent dest fs entries)[j]?.map (dupKey parent dest) := by
  have hi : i < entries.length := Nat.lt_trans hij hj
  have hei : entries[i]? = some (entries.get ⟨i, hi⟩) := by
    simp [List.getElem?_eq_getElem hi]
  have hej : entries[j]? = some (entries.get ⟨j, hj⟩) := by
    simp [List.getElem?_eq_getElem hj]
  set ei := entries.get ⟨i, hi⟩ with heidef
  set ej := entries.get ⟨j, hj⟩ with hejdef
  rw [hei, hej] at hkey
  simp only [Option.map_some'] at hkey
  injection hkey with hkey
  rw [checkDupPass1_getElem parent dest entries i ei hei] at hfi
  rw [checkDupPass1_getElem parent dest entries j ej hej] at hfj
  simp only [Option.map_some', Option.some.injEq] at hfi hfj
  unfold checkDuplicates
  rw [checkDupPass2_getElem, checkDupPass2_getElem,
    checkDupPass1_getElem parent dest entries i ei hei,
    checkDupPass1_getElem parent dest entries j ej hej]
  simp only [Option.map_some']
  rw [dupPass2Step_of_not_on_disk parent dest fs _ hfi,
    dupPass2Step_of_not_on_disk parent dest fs _ hfj]
  simp only [ne_eq, Option.some.injEq]
  set pr := fun e' : FileEntry =>
    decide (dupKey parent dest e' = dupKey parent dest ej) with hpr
  have hpredI : (fun e' : FileEntry =>
      decide (dupKey parent dest e' = dupKey parent dest ei)) = pr := by
    funext e'
    rw [hpr, hkey]
  rw [hpredI]
  set rI := ((entries.take i).filter pr).length with hrI
  set rJ := ((entries.take j).filter pr).length with hrJ
  have hlt : rI < rJ := by
    rw [hrI, hrJ]
    exact rank_lt pr entries i j hij hj
      (by simp only [hpr, decide_eq_true_eq]; exact hkey)
  rw [if_neg (show ¬ rJ = 0 by omega)]
  intro heq
  have h2 := congrArg (fun q : String × String => q.2.data) heq
  simp only at h2
  have hkey2 := congrArg (fun q : String × String => q.2.data) hkey
  simp only [dupKey_snd_data] at hkey2
  have hfromI : (dupKey parent dest
      (if rI = 0 then ei else withDupSuffix ei rI)).2.data =
      (if rI = 0 then
        (lowerStr ei.proposed_name).data ++ (lowerStr ei.extension).data
       else (lowerStr ei.proposed_name).data ++
         (('(' :: (natDigits rI ++ [')'])) ++ (lowerStr ei.extension).data)) := by
    by_cases hri : rI = 0
    · rw [if_pos hri, if_pos hri, dupKey_snd_data]
    · rw [if_neg hri, if_neg hri, dupKey_snd_data]
      show (lowerStr (ei.proposed_name ++ "(" ++ natStr rI ++ ")")).data ++
          (lowerStr ei.extension).data = _
      rw [lowerStr_suffix_data, List.append_assoc]
  have hfromJ : (dupKey parent dest (withDupSuffix ej rJ)).2.data =
      (lowerStr ej.proposed_name).data ++
        (('(' :: (natDigits rJ ++ [')'])) ++ (lowerStr ej.extension).data) := by
    rw [dupKey_snd_data]
    show (lowerStr (ej.proposed_name ++ "(" ++ natStr rJ ++ ")")).data ++
        (lowerStr ej.extension).data = _
    rw [lowerStr_suffix_data, List.append_assoc]
  have hshape := (hfromI.symm.trans h2).trans hfromJ
  exact suffixed_full_names_distinct _ _ _ _ rI rJ hkey2 hlt hshape

/-- Witness for `checkDuplicates_same_group_distinct`: a two-entry group on a
disk holding an unrelated file. -/
theorem checkDuplicates_same_group_distinct_witness :
    (checkDuplicates (fun _ => "") (some "d") ["d/other.pdf"]
      [{ original_path := "a1", original_name := "r", extension := ".ext",
         proposed_name := "report" },
       { original_path := "a2", original_name := "r", extension := ".ext",
         proposed_name := "report" }])[0]?.map
        (dupKey (fun _ => "") (some "d")) ≠
      (checkDuplicates (fun _ => "") (some "d") ["d/other.pdf"]
        [{ original_path := "a1", original_name := "r", extension := ".ext",
           proposed_name := "report" },
         { original_path := "a2", original_name := "r", extension := ".ext",
           proposed_name := "report" }])[1]?.map
          (dupKey (fun _ => "") (some "d")) :=
  checkDuplicates_same_group_distinct (fun _ => "") (some "d") ["d/other.pdf"]
    [{ original_path := "a1", original_name := "r", extension := ".ext",
       proposed_name := "report" },
     { original_path := "a2", original_name := "r", extension := ".ext",
       proposed_name := "report" }] 0 1 (by omega) (by decide) (by decide)
    (by decide) (by decide)

/-! ## Undo: C9 -/

lemma fsLookup_cons (e : String × String) (tl : Fs) (q : String) :
    fsLookup (e :: tl) q = if e.1 = q then some e.2 else fsLookup tl q := by
  by_cases h : e.1 = q <;> simp [fsLookup, List.find?_cons, h]

lemma fsUnlink_cons (e : String × String) (tl : Fs) (p : String) :
    fsUnlink (e :: tl) p =
      if e.1 = p then fsUnlink tl p else e :: fsUnlink tl p := by
  by_cases h : e.1 = p <;> simp [fsUnlink, List.filter_cons, h]

lemma fsExists_cons (e : String × String) (tl : Fs) (p : String) :
    fsExists (e :: tl) p = ((e.1 = p : Bool) || fsExists tl p) := by
  simp [fsExists]

lemma fsExists_fsUnlink_self (fs : Fs) (p : String) :
    fsExists (fsUnlink fs p) p = false := by
  induction fs with
  | nil => rfl
  | cons e tl ih =>
    rw [fsUnlink_cons]
    by_cases h : e.1 = p
    · simpa [h] using ih
    · rw [if_neg h, fsExists_cons, ih]
      simp [h]

lemma fsLookup_fsUnlink_ne (fs : Fs) (p q : String) (h : q ≠ p) :
    fsLookup (fsUnlink fs p) q = fsLookup fs q := by
  induction fs with
  | nil => rfl
  | cons e tl ih =>
    rw [fsUnlink_cons]
    by_cases h1 : e.1 = p
    · have h2 : ¬ e.1 = q := fun hh => h (by rw [← hh, h1])
      rw [if_pos h1, fsLookup_cons, if_neg h2, ih]
    · rw [if_neg h1, fsLookup_cons, fsLookup_cons, ih]

lemma fsExists_eq_lookup_isSome (fs : Fs) (p : String) :
    fsExists fs p = (fsLookup fs p).isSome := by
  induction fs with
  | nil => rfl
  | cons e tl ih =>
    rw [fsExists_cons, fsLookup_cons]
    by_cases h1 : e.1 = p <;> simp [h1, ih]

lemma fsLookup_isSome_of_fsExists (fs : Fs) (p : String)
    (h : fsExists fs p = true) : ∃ v, fsLookup fs p = some v := by
  rw [fsExists_eq_lookup_isSome] at h
  exact Option.isSome_iff_exists.mp h

lemma find?_filterOut_none (fs : Fs) (src dst : String) :
    (fs.filter (fun e => !(e.1 = src : Bool) && !(e.1 = dst : Bool))).find?
      (fun e => (e.1 = dst : Bool)) = none := by
  rw [List.find?_eq_none]
  intro x hx
  have := List.of_mem_filter hx
  simp only [Bool.and_eq_true, Bool.not_eq_true', decide_eq_false_iff_not] at this
  simp [this.2]

lemma fsMove_eq_of_lookup (fs : Fs) (src dst v : String)
    (hv : fsLookup fs src = some v) :
    fsMove fs src dst =
      fs.filter (fun e => !(e.1 = src : Bool) && !(e.1 = dst : Bool)) ++
        [(dst, v)] := by
  unfold fsMove
  rw [hv]

lemma fsLookup_fsMove_dst (fs : Fs) (src dst : String)
    (h : fsExists fs src = true) :
    fsLookup (fsMove fs src dst) dst = fsLookup fs src := by
  obtain ⟨v, hv⟩ := fsLookup_isSome_of_fsExists fs src h
  rw [hv, fsMove_eq_of_lookup fs src dst v hv]
  simp only [fsLookup, List.find?_append, find?_filterOut_none]
  simp [List.find?_cons]

lemma fsExists_fsMove_src (fs : Fs) (src dst : String) (hne : dst ≠ src) :
    fsExists (fsMove fs src dst) src = false := by
  cases hv : fsLookup fs src with
  | none =>
    have : fsMove fs src dst = fs := by
      unfold fsMove
      rw [hv]
    rw [this, fsExists_eq_lookup_isSome, hv]
    rfl
  | some v =>
    rw [fsMove_eq_of_lookup fs src dst v hv]
    simp only [fsExists, List.any_append]
    have h1 : (fs.filter
        (fun e => !(e.1 = src : Bool) && !(e.1 = dst : Bool))).any
        (fun e => (e.1 = src : Bool)) = false := by
      rw [List.any_eq_false]
      intro x hx
      have := List.of_mem_filter hx
      simp only [Bool.and_eq_true, Bool.not_eq_true', decide_eq_false_iff_not] at this
      simp [this.1]
    simp [h1, hne]

/-- **C9.**  Undo processes the most recent persisted transaction's operations
in exactly the reverse of their recorded order and removes that transaction's
log afterwards, on both full and partial undo (the log-removal and the result
are computed from the fold over *all* reversed operations, whether or not
`errors` is empty); a copy operation is undone by deleting the new path while
leaving the old path untouched, and a rename operation is undone by moving
the file at the new path back to the old path. -/
theorem undoLastRename_reverse_semantics
    (fs : Fs) (tx : RenameTransaction) (rest : List RenameTransaction)
    (st : UndoState) (op : Operation) :
    (undoLastRename fs (tx :: rest) =
      ((tx.operations.reverse.foldl undoStep { fs := fs }).fs, rest,
        (tx.operations.reverse.foldl undoStep { fs := fs }).errors.isEmpty)) ∧
    (op.type = OpType.copy → fsExists st.fs op.new_path = true →
      fsExists (undoStep st op).fs op.new_path = false ∧
      (op.old_path ≠ op.new_path →
        fsLookup (undoStep st op).fs op.old_path = fsLookup st.fs op.old_path)) ∧
    (op.type = OpType.rename → fsExists st.fs op.new_path = true →
      fsLookup (undoStep st op).fs op.old_path = fsLookup st.fs op.new_path ∧
      (op.old_path ≠ op.new_path →
        fsExists (undoStep st op).fs op.new_path = false)) := by
  refine ⟨rfl, ?_, ?_⟩
  · intro hty hex
    simp only [undoStep, hex, if_true, hty]
    exact ⟨fsExists_fsUnlink_self st.fs op.new_path,
      fun hne => fsLookup_fsUnlink_ne st.fs op.new_path op.old_path hne⟩
  · intro hty hex
    simp only [undoStep, hex, if_true, hty]
    exact ⟨fsLookup_fsMove_dst st.fs op.new_path op.old_path hex,
      fun hne => fsExists_fsMove_src st.fs op.new_path op.old_path hne⟩

/-- Witness for `undoLastRename_reverse_semantics` at concrete inputs: a copy
undo deletes the copy, a rename undo restores the original content at the old
path. -/
theorem undoLastRename_reverse_semantics_witness :
    fsExists (undoStep { fs := [("d/n", "c")] }
      ⟨OpType.copy, "a/o", "d/n"⟩).fs "d/n" = false ∧
    fsLookup (undoStep { fs := [("d/n", "c")] }
      ⟨OpType.rename, "a/o", "d/n"⟩).fs "a/o" = fsLookup [("d/n", "c")] "d/n" :=
  ⟨((undoLastRename_reverse_semantics [("d/n", "c")] ⟨"", []⟩ []
      { fs := [("d/n", "c")] } ⟨OpType.copy, "a/o", "d/n"⟩).2.1 rfl
      (by decide)).1,
   ((undoLastRename_reverse_semantics [("d/n", "c")] ⟨"", []⟩ []
      { fs := [("d/n", "c")] } ⟨OpType.rename, "a/o", "d/n"⟩).2.2 rfl
      (by decide)).1⟩

end SmartFileRenamer
